import Mathlib

/-!
Verification of the pose-compounding engine of the `teleop` repository
(`src/teleop/__init__.py`), against its natural-language specification.

The engine is embedded shallowly over the exact rationals `ℚ` (an exact model
of the Python float arithmetic): 4x4 homogeneous matrices are
`Matrix (Fin 4) (Fin 4) ℚ`, `numpy` matrix products are Mathlib matrix
products, and `np.linalg.inv` is the exact adjugate/determinant inverse.
The two transcendental library routines reached by the code
(`math.sqrt` and `math.atan2`, used inside `transforms3d.euler.mat2euler`)
are modelled by rational functions that agree exactly with the real ones on
every argument at which the theorems below evaluate them (perfect squares for
`sqrt`; the positive x-axis for `atan2`); their values elsewhere are never
relied on, since the relevant claims treat the Euler extraction as opaque.
-/

set_option maxHeartbeats 1600000
set_option maxRecDepth 8000

abbrev M3 : Type := Matrix (Fin 3) (Fin 3) ℚ
abbrev M4 : Type := Matrix (Fin 4) (Fin 4) ℚ
abbrev V3 : Type := Fin 3 → ℚ
abbrev V4 : Type := Fin 4 → ℚ

/-- Rotation block `m[:3, :3]` of a 4x4 matrix. -/
def rot (m : M4) : M3 :=
  Matrix.of fun i j => m (Fin.castSucc i) (Fin.castSucc j)

/-- Translation column `m[:3, 3]` of a 4x4 matrix. -/
def transl (m : M4) : V3 :=
  fun i => m (Fin.castSucc i) 3

/-- The matrix built by `t3d.affines.compose(T, R, [1,1,1])`:
`A = np.eye(4); A[:3,:3] = R; A[:3,3] = T`.  The same shape is produced by
`Teleop.__update` lines 195-197 when it rebuilds `self.__pose`. -/
def compose (t : V3) (r : M3) : M4 :=
  !![r 0 0, r 0 1, r 0 2, t 0;
     r 1 0, r 1 1, r 1 2, t 1;
     r 2 0, r 2 1, r 2 2, t 2;
     0, 0, 0, 1]

/-- In-place block assignment `m[:3, :3] = r` (line 166 of the source). -/
def setRot (m : M4) (r : M3) : M4 :=
  !![r 0 0, r 0 1, r 0 2, m 0 3;
     r 1 0, r 1 1, r 1 2, m 1 3;
     r 2 0, r 2 1, r 2 2, m 2 3;
     m 3 0, m 3 1, m 3 2, m 3 3]

/-- The bottom row of the homogeneous matrix is `[0, 0, 0, 1]`. -/
def bottomRow (m : M4) : Prop :=
  m 3 0 = 0 ∧ m 3 1 = 0 ∧ m 3 2 = 0 ∧ m 3 3 = 1

instance (m : M4) : Decidable (bottomRow m) := by
  unfold bottomRow; infer_instance

/-- Explicit 3x3 determinant (first-row Laplace expansion). -/
def det3 (m : M3) : ℚ :=
  m 0 0 * (m 1 1 * m 2 2 - m 1 2 * m 2 1)
    - m 0 1 * (m 1 0 * m 2 2 - m 1 2 * m 2 0)
    + m 0 2 * (m 1 0 * m 2 1 - m 1 1 * m 2 0)

/-- Explicit 3x3 adjugate (transposed cofactor matrix). -/
def adj3 (m : M3) : M3 :=
  !![m 1 1 * m 2 2 - m 1 2 * m 2 1,
     -(m 0 1 * m 2 2 - m 0 2 * m 2 1),
     m 0 1 * m 1 2 - m 0 2 * m 1 1;
     -(m 1 0 * m 2 2 - m 1 2 * m 2 0),
     m 0 0 * m 2 2 - m 0 2 * m 2 0,
     -(m 0 0 * m 1 2 - m 0 2 * m 1 0);
     m 1 0 * m 2 1 - m 1 1 * m 2 0,
     -(m 0 0 * m 2 1 - m 0 1 * m 2 0),
     m 0 0 * m 1 1 - m 0 1 * m 1 0]

/-- Exact model of `np.linalg.inv` on a 3x3 matrix: the true inverse whenever
the matrix is invertible (on a singular matrix numpy raises; every 3x3
inverse taken by the code is of a rotation matrix, which is invertible). -/
def inv3 (m : M3) : M3 := (det3 m)⁻¹ • adj3 m

/-- Explicit 4x4 determinant (first-row Laplace expansion). -/
def det4 (m : M4) : ℚ :=
  m 0 0 * (m 1 1 * (m 2 2 * m 3 3 - m 2 3 * m 3 2) - m 1 2 * (m 2 1 * m 3 3 - m 2 3 * m 3 1) + m 1 3 * (m 2 1 * m 3 2 - m 2 2 * m 3 1))
    - m 0 1 * (m 1 0 * (m 2 2 * m 3 3 - m 2 3 * m 3 2) - m 1 2 * (m 2 0 * m 3 3 - m 2 3 * m 3 0) + m 1 3 * (m 2 0 * m 3 2 - m 2 2 * m 3 0))
    + m 0 2 * (m 1 0 * (m 2 1 * m 3 3 - m 2 3 * m 3 1) - m 1 1 * (m 2 0 * m 3 3 - m 2 3 * m 3 0) + m 1 3 * (m 2 0 * m 3 1 - m 2 1 * m 3 0))
    - m 0 3 * (m 1 0 * (m 2 1 * m 3 2 - m 2 2 * m 3 1) - m 1 1 * (m 2 0 * m 3 2 - m 2 2 * m 3 0) + m 1 2 * (m 2 0 * m 3 1 - m 2 1 * m 3 0))

/-- Explicit 4x4 adjugate (transposed cofactor matrix). -/
def adj4 (m : M4) : M4 :=
  !![(m 1 1 * (m 2 2 * m 3 3 - m 2 3 * m 3 2) - m 1 2 * (m 2 1 * m 3 3 - m 2 3 * m 3 1) + m 1 3 * (m 2 1 * m 3 2 - m 2 2 * m 3 1)),
     -(m 0 1 * (m 2 2 * m 3 3 - m 2 3 * m 3 2) - m 0 2 * (m 2 1 * m 3 3 - m 2 3 * m 3 1) + m 0 3 * (m 2 1 * m 3 2 - m 2 2 * m 3 1)),
     (m 0 1 * (m 1 2 * m 3 3 - m 1 3 * m 3 2) - m 0 2 * (m 1 1 * m 3 3 - m 1 3 * m 3 1) + m 0 3 * (m 1 1 * m 3 2 - m 1 2 * m 3 1)),
     -(m 0 1 * (m 1 2 * m 2 3 - m 1 3 * m 2 2) - m 0 2 * (m 1 1 * m 2 3 - m 1 3 * m 2 1) + m 0 3 * (m 1 1 * m 2 2 - m 1 2 * m 2 1));
     -(m 1 0 * (m 2 2 * m 3 3 - m 2 3 * m 3 2) - m 1 2 * (m 2 0 * m 3 3 - m 2 3 * m 3 0) + m 1 3 * (m 2 0 * m 3 2 - m 2 2 * m 3 0)),
     (m 0 0 * (m 2 2 * m 3 3 - m 2 3 * m 3 2) - m 0 2 * (m 2 0 * m 3 3 - m 2 3 * m 3 0) + m 0 3 * (m 2 0 * m 3 2 - m 2 2 * m 3 0)),
     -(m 0 0 * (m 1 2 * m 3 3 - m 1 3 * m 3 2) - m 0 2 * (m 1 0 * m 3 3 - m 1 3 * m 3 0) + m 0 3 * (m 1 0 * m 3 2 - m 1 2 * m 3 0)),
     (m 0 0 * (m 1 2 * m 2 3 - m 1 3 * m 2 2) - m 0 2 * (m 1 0 * m 2 3 - m 1 3 * m 2 0) + m 0 3 * (m 1 0 * m 2 2 - m 1 2 * m 2 0));
     (m 1 0 * (m 2 1 * m 3 3 - m 2 3 * m 3 1) - m 1 1 * (m 2 0 * m 3 3 - m 2 3 * m 3 0) + m 1 3 * (m 2 0 * m 3 1 - m 2 1 * m 3 0)),
     -(m 0 0 * (m 2 1 * m 3 3 - m 2 3 * m 3 1) - m 0 1 * (m 2 0 * m 3 3 - m 2 3 * m 3 0) + m 0 3 * (m 2 0 * m 3 1 - m 2 1 * m 3 0)),
     (m 0 0 * (m 1 1 * m 3 3 - m 1 3 * m 3 1) - m 0 1 * (m 1 0 * m 3 3 - m 1 3 * m 3 0) + m 0 3 * (m 1 0 * m 3 1 - m 1 1 * m 3 0)),
     -(m 0 0 * (m 1 1 * m 2 3 - m 1 3 * m 2 1) - m 0 1 * (m 1 0 * m 2 3 - m 1 3 * m 2 0) + m 0 3 * (m 1 0 * m 2 1 - m 1 1 * m 2 0));
     -(m 1 0 * (m 2 1 * m 3 2 - m 2 2 * m 3 1) - m 1 1 * (m 2 0 * m 3 2 - m 2 2 * m 3 0) + m 1 2 * (m 2 0 * m 3 1 - m 2 1 * m 3 0)),
     (m 0 0 * (m 2 1 * m 3 2 - m 2 2 * m 3 1) - m 0 1 * (m 2 0 * m 3 2 - m 2 2 * m 3 0) + m 0 2 * (m 2 0 * m 3 1 - m 2 1 * m 3 0)),
     -(m 0 0 * (m 1 1 * m 3 2 - m 1 2 * m 3 1) - m 0 1 * (m 1 0 * m 3 2 - m 1 2 * m 3 0) + m 0 2 * (m 1 0 * m 3 1 - m 1 1 * m 3 0)),
     (m 0 0 * (m 1 1 * m 2 2 - m 1 2 * m 2 1) - m 0 1 * (m 1 0 * m 2 2 - m 1 2 * m 2 0) + m 0 2 * (m 1 0 * m 2 1 - m 1 1 * m 2 0))]

/-- Exact model of `np.linalg.inv` on a 4x4 matrix (see `inv3`). -/
def inv4 (m : M4) : M4 := (det4 m)⁻¹ • adj4 m

/-- Machine epsilon of float64: `numpy.finfo(float).eps` and transforms3d's
`_FLOAT_EPS`, exactly `2⁻⁵²`. -/
def FLOAT_EPS : ℚ := 1 / 2 ^ 52

/-- transforms3d's `_EPS4 = np.finfo(float).eps * 4.0`, exactly `2⁻⁵⁰`. -/
def EPS4 : ℚ := 1 / 2 ^ 50

/-- The float64 value of `math.pi`, exactly. -/
def piQ : ℚ := 884279719003555 / 281474976710656

/-- Model of `math.radians`: degrees to radians via the float64 `pi`. -/
def radians (d : ℚ) : ℚ := d * (piQ / 180)

/-- Model of `math.sqrt` over the exact rationals.  It returns the exact
square root whenever the argument is the square of a rational.  Every
argument it receives in this development is such a square (the arguments
that reach it through `mat2euler` in the proved theorems are `0` and `1`);
no theorem below depends on its value elsewhere, where the true square root
is irrational and the function returns `0`. -/
def sqrtQ (q : ℚ) : ℚ :=
  if 0 ≤ q ∧ Nat.sqrt q.num.toNat ^ 2 = q.num.toNat ∧ Nat.sqrt q.den ^ 2 = q.den
  then (Nat.sqrt q.num.toNat : ℚ) / (Nat.sqrt q.den : ℚ)
  else 0

/-- Model of `math.atan2 y x` over the exact rationals.  `atan2` takes a
rational value at a rational argument only on the positive x-axis, where it
is `0`; the model is exact there.  Every argument it receives in the proved
theorems lies on that axis (Euler extraction is only ever evaluated at the
identity rotation); no theorem below depends on its value elsewhere, where
the true angle is irrational and the function returns `0`. -/
def atan2Q (y x : ℚ) : ℚ :=
  if y = 0 ∧ 0 < x then 0 else 0

/-- `transforms3d.euler.mat2euler` for the default axes `sxyz`
(firstaxis i = 0, j = 1, k = 2, no repetition, no parity, no frame):

    cy = sqrt(M[0,0]*M[0,0] + M[1,0]*M[1,0])
    if cy > _EPS4:
        ax = atan2( M[2,1], M[2,2]); ay = atan2(-M[2,0], cy); az = atan2(M[1,0], M[0,0])
    else:
        ax = atan2(-M[1,2], M[1,1]); ay = atan2(-M[2,0], cy); az = 0.0
-/
def mat2euler (M : M3) : V3 :=
  let cy := sqrtQ (M 0 0 * M 0 0 + M 1 0 * M 1 0)
  if EPS4 < cy then
    ![atan2Q (M 2 1) (M 2 2), atan2Q (-(M 2 0)) cy, atan2Q (M 1 0) (M 0 0)]
  else
    ![atan2Q (-(M 1 2)) (M 1 1), atan2Q (-(M 2 0)) cy, 0]

/-- `transforms3d.quaternions.quat2mat` on `q = [w, x, y, z]`:

    Nq = w*w + x*x + y*y + z*z
    if Nq < _FLOAT_EPS: return np.eye(3)
    s = 2.0/Nq; X = x*s; Y = y*s; Z = z*s
    wX = w*X; wY = w*Y; wZ = w*Z; xX = x*X; xY = x*Y; xZ = x*Z
    yY = y*Y; yZ = y*Z; zZ = z*Z
    [[1-(yY+zZ), xY-wZ, xZ+wY], [xY+wZ, 1-(xX+zZ), yZ-wX], [xZ-wY, yZ+wX, 1-(xX+yY)]]
-/
def quat2mat (q : V4) : M3 :=
  let w := q 0
  let x := q 1
  let y := q 2
  let z := q 3
  let Nq := w * w + x * x + y * y + z * z
  if Nq < FLOAT_EPS then 1
  else
    let s := 2 / Nq
    !![1 - (y * (y * s) + z * (z * s)), x * (y * s) - w * (z * s),
       x * (z * s) + w * (y * s);
       x * (y * s) + w * (z * s), 1 - (x * (x * s) + z * (z * s)),
       y * (z * s) - w * (x * s);
       x * (z * s) - w * (y * s), y * (z * s) + w * (x * s),
       1 - (x * (x * s) + y * (y * s))]

/-- `np.allclose(v, np.zeros(3), atol)` for a 3-vector `v`: per-axis
`|v i - 0| ≤ atol + rtol * |0| = atol` (numpy's relative term vanishes
against a zero reference). -/
def npAllcloseZero (v : V3) (atol : ℚ) : Bool :=
  decide (∀ i, |v i| ≤ atol)

/-- The `are_close` function of `src/teleop/__init__.py` lines 30-49:

    if b is None: b = np.eye(4)
    d = np.linalg.inv(a) @ b
    if not np.allclose(d[:3, 3], np.zeros(3), atol=lin_tol): return False
    rpy = t3d.euler.mat2euler(d[:3, :3])
    return np.allclose(rpy, np.zeros(3), atol=ang_tol)

The default `b` (`None` -> identity) is modelled by a default argument, and
the defaults `lin_tol = ang_tol = 1e-9` by the exact rational `10⁻⁹`. -/
def are_close (a : M4) (b : M4 := 1) (lin_tol : ℚ := 1 / 10 ^ 9)
    (ang_tol : ℚ := 1 / 10 ^ 9) : Bool :=
  let d := inv4 a * b
  if !npAllcloseZero (transl d) lin_tol then false
  else npAllcloseZero (mat2euler (rot d)) ang_tol

/-- `TF_RUB2FLU` (line 14 of the source). -/
def TF_RUB2FLU : M4 :=
  !![0, 0, -1, 0;
     -1, 0, 0, 0;
     0, 1, 0, 0;
     0, 0, 0, 1]

/-- A 3-component position field of an incoming message. -/
structure Vec3Msg where
  x : ℚ
  y : ℚ
  z : ℚ
deriving DecidableEq

/-- A quaternion field of an incoming message. -/
structure QuatMsg where
  w : ℚ
  x : ℚ
  y : ℚ
  z : ℚ
deriving DecidableEq

/-- An incoming sample as read by `Teleop.__update`.  A `none` field models a
key missing from the JSON dictionary: the corresponding `message[...]` read
in the Python code raises `KeyError`. -/
structure Msg where
  move : Option Bool
  position : Option Vec3Msg
  orientation : Option QuatMsg
deriving DecidableEq

/-- The exception escaping `Teleop.__update` when it fails: a `KeyError` on a
missing message field, or a `TypeError` from subscripting a `None` reference
pose (the latter is unreachable from any state this development builds). -/
inductive UpdateError where
  | keyError (field : String)
  | noneSubscript
deriving DecidableEq

/-- The mutable fields of a `Teleop` instance that `__update` reads or
writes, plus the immutable `__natural_phone_pose` it reads. -/
structure TeleopState where
  relative_pose_init : Option M4
  absolute_pose_init : Option M4
  previous_received_pose : Option M4
  pose : M4
  natural_phone_pose : M4
deriving DecidableEq

/-- The fresh state built by `Teleop.__init__`: no references, output pose
`np.eye(4)`, and the natural phone pose
`t3d.affines.compose(natural_phone_position, euler2mat(*euler), [1,1,1])`.
The Euler-to-matrix conversion `t3d.euler.euler2mat` is transcendental; the
embedding takes the resulting rotation matrix directly (the Euler offset
`[0,0,0]` of the reference test scenario corresponds exactly to the identity
rotation, since `cos 0 = 1` and `sin 0 = 0`). -/
def initState (natural_phone_position : V3) (natural_phone_rot : M3) :
    TeleopState :=
  { relative_pose_init := none
    absolute_pose_init := none
    previous_received_pose := none
    pose := 1
    natural_phone_pose := compose natural_phone_position natural_phone_rot }

/-- Lines 162-169 of `Teleop.__update`: frame conversion of the raw sample.

    received_pose_rub = t3d.affines.compose(position, quat2mat(quat), [1,1,1])
    received_pose = TF_RUB2FLU @ received_pose_rub
    received_pose[:3,:3] = received_pose[:3,:3] @ np.linalg.inv(TF_RUB2FLU[:3,:3])
    received_pose = received_pose @ self.__natural_phone_pose
-/
def convertReceived (natural_phone_pose : M4) (position : V3) (quat : V4) :
    M4 :=
  let received_pose_rub := compose position (quat2mat quat)
  let p1 := TF_RUB2FLU * received_pose_rub
  let p2 := setRot p1 (rot p1 * inv3 (rot TF_RUB2FLU))
  p2 * natural_phone_pose

/-- Lines 183-200 of `Teleop.__update`: the accepted-sample tail (reached
when the jump check is passed or skipped).  Records the received pose,
initializes the gesture references if absent (which also clears
`__previous_received_pose`), recomputes `self.__pose`, and notifies once. -/
def acceptPose (s : TeleopState) (message : Msg) (received_pose : M4) :
    Except UpdateError (TeleopState × List (M4 × Msg)) :=
  let s1 := { s with previous_received_pose := some received_pose }
  let s2 :=
    match s1.relative_pose_init with
    | none =>
      { s1 with
        relative_pose_init := some received_pose
        absolute_pose_init := some s1.pose
        previous_received_pose := none }
    | some _ => s1
  match s2.relative_pose_init, s2.absolute_pose_init with
  | some rel, some a4 =>
    let relative_position := transl received_pose - transl rel
    let relative_orientation := rot received_pose * inv3 (rot rel)
    let newPose :=
      compose (transl a4 + relative_position) (relative_orientation * rot a4)
    .ok ({ s2 with pose := newPose }, [(newPose, message)])
  | _, _ => .error .noneSubscript

/-- `Teleop.__update` (lines 146-200).  The result carries the new state and
the list of `__notify_subscribers(pose, message)` calls made during the
call; a missing message field yields the `KeyError` the Python read raises
(before any state mutation). -/
def update (s : TeleopState) (message : Msg) :
    Except UpdateError (TeleopState × List (M4 × Msg)) :=
  match message.move, message.position, message.orientation with
  | none, _, _ => .error (.keyError "move")
  | some _, none, _ => .error (.keyError "position")
  | some _, some _, none => .error (.keyError "orientation")
  | some move, some position, some orientation =>
    let pvec : V3 := ![position.x, position.y, position.z]
    let quat : V4 := ![orientation.w, orientation.x, orientation.y, orientation.z]
    if move = false then
      .ok ({ s with relative_pose_init := none, absolute_pose_init := none },
        [(s.pose, message)])
    else
      let received_pose := convertReceived s.natural_phone_pose pvec quat
      match s.previous_received_pose with
      | some previous =>
        if are_close received_pose previous (1 / 10) (radians 35) then
          acceptPose s message received_pose
        else
          .ok ({ s with
                  relative_pose_init := none
                  previous_received_pose := some received_pose }, [])
      | none => acceptPose s message received_pose

/-- Sequential processing of a list of samples, accumulating every
notification made along the way. -/
def runUpdates (s : TeleopState) :
    List Msg → Except UpdateError (TeleopState × List (M4 × Msg))
  | [] => .ok (s, [])
  | m :: ms =>
    match update s m with
    | .error e => .error e
    | .ok (s1, ns) =>
      match runUpdates s1 ms with
      | .error e => .error e
      | .ok (s2, ns2) => .ok (s2, ns ++ ns2)

/-- The failure a subscriber callback can signal: a Python exception raised
inside the callback body. -/
inductive CbError where
  | raised
deriving DecidableEq

/-- A subscriber callback `Callable[[np.ndarray, dict], None]`; its run
either returns normally or raises. -/
structure Callback where
  run : M4 → Msg → Except CbError Unit

/-- `Teleop.__notify_subscribers` (lines 142-144):

    for callback in self.__callbacks:
        callback(pose, message)

There is no exception handling around the loop body.  The result records, in
execution order, the zero-based registration indices of the callbacks that
were actually invoked, together with the exception (if any) that escaped the
loop. -/
def notify_subscribers : List Callback → M4 → Msg → List Nat × Option CbError
  | [], _, _ => ([], none)
  | c :: cs, pose, message =>
    match c.run pose message with
    | .ok _ =>
      let r := notify_subscribers cs pose message
      (0 :: r.1.map (· + 1), r.2)
    | .error e => ([0], some e)


/-! ### Block structure of homogeneous matrices -/

theorem castSucc0 : (Fin.castSucc (0 : Fin 3)) = (0 : Fin 4) := rfl

theorem castSucc1 : (Fin.castSucc (1 : Fin 3)) = (1 : Fin 4) := rfl

theorem castSucc2 : (Fin.castSucc (2 : Fin 3)) = (2 : Fin 4) := rfl

theorem bottomRow_compose (t : V3) (r : M3) : bottomRow (compose t r) :=
  ⟨rfl, rfl, rfl, rfl⟩

theorem rot_compose (t : V3) (r : M3) : rot (compose t r) = r := by
  ext i j
  fin_cases i <;> fin_cases j <;> rfl

theorem transl_compose (t : V3) (r : M3) : transl (compose t r) = t := by
  funext i
  fin_cases i <;> rfl

theorem rot_setRot (m : M4) (r : M3) : rot (setRot m r) = r := by
  ext i j
  fin_cases i <;> fin_cases j <;> rfl

theorem transl_setRot (m : M4) (r : M3) : transl (setRot m r) = transl m := by
  funext i
  fin_cases i <;> rfl

theorem bottomRow_setRot (m : M4) (r : M3) (h : bottomRow m) :
    bottomRow (setRot m r) := by
  obtain ⟨h0, h1, h2, h3⟩ := h
  exact ⟨h0, h1, h2, h3⟩

theorem compose_transl_rot (m : M4) (h : bottomRow m) :
    compose (transl m) (rot m) = m := by
  obtain ⟨h0, h1, h2, h3⟩ := h
  ext i j
  fin_cases i <;> fin_cases j <;>
    simp [compose, rot, transl, Matrix.cons_val', Matrix.cons_val_zero,
      Matrix.cons_val_one, Matrix.head_cons, Matrix.head_fin_const,
      Matrix.empty_val', Matrix.cons_val_fin_one, Matrix.of_apply,
      castSucc0, castSucc1, castSucc2, h0, h1, h2, h3]

theorem setRot_eq_compose (m : M4) (r : M3) (h : bottomRow m) :
    setRot m r = compose (transl m) r := by
  obtain ⟨h0, h1, h2, h3⟩ := h
  ext i j
  fin_cases i <;> fin_cases j <;>
    simp [compose, setRot, transl, Matrix.cons_val', Matrix.cons_val_zero,
      Matrix.cons_val_one, Matrix.head_cons, Matrix.head_fin_const,
      Matrix.empty_val', Matrix.cons_val_fin_one, Matrix.of_apply,
      castSucc0, castSucc1, castSucc2, h0, h1, h2, h3]

theorem compose_mul (t u : V3) (r s : M3) :
    compose t r * compose u s = compose (r.mulVec u + t) (r * s) := by
  ext i j
  fin_cases i <;> fin_cases j <;>
    simp [compose, Matrix.mul_apply, Matrix.mulVec, Matrix.dotProduct,
      Fin.sum_univ_four, Fin.sum_univ_three, Pi.add_apply,
      Matrix.cons_val', Matrix.cons_val_zero, Matrix.cons_val_one,
      Matrix.head_cons, Matrix.head_fin_const, Matrix.empty_val',
      Matrix.cons_val_fin_one, Matrix.of_apply]

theorem bottomRow_mul (P Q : M4) (hP : bottomRow P) (hQ : bottomRow Q) :
    bottomRow (P * Q) := by
  obtain ⟨p0, p1, p2, p3⟩ := hP
  obtain ⟨q0, q1, q2, q3⟩ := hQ
  refine ⟨?_, ?_, ?_, ?_⟩ <;>
    simp [Matrix.mul_apply, Fin.sum_univ_four, p0, p1, p2, p3, q0, q1, q2, q3]

theorem rot_mul (P Q : M4) (hQ : bottomRow Q) :
    rot (P * Q) = rot P * rot Q := by
  obtain ⟨q0, q1, q2, q3⟩ := hQ
  ext i j
  fin_cases i <;> fin_cases j <;>
    simp [rot, Matrix.mul_apply, Fin.sum_univ_four, Fin.sum_univ_three,
      Matrix.of_apply, castSucc0, castSucc1, castSucc2, q0, q1, q2, q3]

theorem transl_mul (P Q : M4) (hQ : bottomRow Q) :
    transl (P * Q) = (rot P).mulVec (transl Q) + transl P := by
  obtain ⟨q0, q1, q2, q3⟩ := hQ
  funext i
  fin_cases i <;>
    simp [rot, transl, Matrix.mul_apply, Matrix.mulVec, Matrix.dotProduct,
      Fin.sum_univ_four, Fin.sum_univ_three, Pi.add_apply, Matrix.of_apply,
      castSucc0, castSucc1, castSucc2, q0, q1, q2, q3]

/-! ### Determinants and exact inverses -/

theorem det3_eq_det (m : M3) : det3 m = m.det := by
  rw [Matrix.det_fin_three]
  unfold det3
  ring

theorem det3_mul (a b : M3) : det3 (a * b) = det3 a * det3 b := by
  simp [det3_eq_det, Matrix.det_mul]

theorem det3_one : det3 (1 : M3) = 1 := by
  simp [det3_eq_det]

theorem det3_transpose (m : M3) : det3 (Matrix.transpose m) = det3 m := by
  simp [det3_eq_det, Matrix.det_transpose]

theorem mul_adj3 (m : M3) : m * adj3 m = det3 m • 1 := by
  ext i j
  fin_cases i <;> fin_cases j <;>
    simp [Matrix.mul_apply, Fin.sum_univ_three, adj3, det3, Matrix.smul_apply,
      Matrix.one_apply, Matrix.cons_val', Matrix.cons_val_zero, Matrix.cons_val_one,
      Matrix.head_cons, Matrix.head_fin_const, Matrix.empty_val',
      Matrix.cons_val_fin_one, Matrix.of_apply] <;> ring

theorem adj3_mul (m : M3) : adj3 m * m = det3 m • 1 := by
  ext i j
  fin_cases i <;> fin_cases j <;>
    simp [Matrix.mul_apply, Fin.sum_univ_three, adj3, det3, Matrix.smul_apply,
      Matrix.one_apply, Matrix.cons_val', Matrix.cons_val_zero, Matrix.cons_val_one,
      Matrix.head_cons, Matrix.head_fin_const, Matrix.empty_val',
      Matrix.cons_val_fin_one, Matrix.of_apply] <;> ring

theorem mul_inv3 (m : M3) (h : det3 m ≠ 0) : m * inv3 m = 1 := by
  unfold inv3
  rw [Matrix.mul_smul, mul_adj3, smul_smul, inv_mul_cancel₀ h, one_smul]

theorem inv3_mul (m : M3) (h : det3 m ≠ 0) : inv3 m * m = 1 := by
  unfold inv3
  rw [Matrix.smul_mul, adj3_mul, smul_smul, inv_mul_cancel₀ h, one_smul]

theorem inv3_unique (m y : M3) (h : det3 m ≠ 0) (hy : m * y = 1) : inv3 m = y := by
  calc inv3 m = inv3 m * (m * y) := by rw [hy, mul_one]
    _ = (inv3 m * m) * y := by rw [mul_assoc]
    _ = y := by rw [inv3_mul m h, one_mul]

theorem det3_ne_zero_of_mul_eq_one (m y : M3) (hy : m * y = 1) : det3 m ≠ 0 := by
  intro h
  have := det3_mul m y
  rw [hy, det3_one, h, zero_mul] at this
  norm_num at this

theorem inv3_one : inv3 (1 : M3) = 1 :=
  inv3_unique 1 1 (by rw [det3_one]; norm_num) (mul_one 1)

theorem inv3_mul_rev (a b : M3) (ha : det3 a ≠ 0) (hb : det3 b ≠ 0) :
    inv3 (a * b) = inv3 b * inv3 a := by
  have hab : det3 (a * b) ≠ 0 := by
    rw [det3_mul]
    exact mul_ne_zero ha hb
  refine inv3_unique _ _ hab ?_
  calc a * b * (inv3 b * inv3 a) = a * (b * inv3 b) * inv3 a := by
        rw [mul_assoc, mul_assoc, mul_assoc]
    _ = a * inv3 a := by rw [mul_inv3 b hb, mul_one]
    _ = 1 := mul_inv3 a ha

theorem mul_adj4 (m : M4) : m * adj4 m = det4 m • 1 := by
  ext i j
  fin_cases i <;> fin_cases j <;>
    simp [Matrix.mul_apply, Fin.sum_univ_four, adj4, det4, Matrix.smul_apply,
      Matrix.one_apply, Matrix.cons_val', Matrix.cons_val_zero, Matrix.cons_val_one,
      Matrix.head_cons, Matrix.head_fin_const, Matrix.empty_val',
      Matrix.cons_val_fin_one, Matrix.of_apply] <;> ring

theorem adj4_mul (m : M4) : adj4 m * m = det4 m • 1 := by
  ext i j
  fin_cases i <;> fin_cases j <;>
    simp [Matrix.mul_apply, Fin.sum_univ_four, adj4, det4, Matrix.smul_apply,
      Matrix.one_apply, Matrix.cons_val', Matrix.cons_val_zero, Matrix.cons_val_one,
      Matrix.head_cons, Matrix.head_fin_const, Matrix.empty_val',
      Matrix.cons_val_fin_one, Matrix.of_apply] <;> ring

theorem mul_inv4 (m : M4) (h : det4 m ≠ 0) : m * inv4 m = 1 := by
  unfold inv4
  rw [Matrix.mul_smul, mul_adj4, smul_smul, inv_mul_cancel₀ h, one_smul]

theorem inv4_mul (m : M4) (h : det4 m ≠ 0) : inv4 m * m = 1 := by
  unfold inv4
  rw [Matrix.smul_mul, adj4_mul, smul_smul, inv_mul_cancel₀ h, one_smul]

theorem inv4_unique (m y : M4) (h : det4 m ≠ 0) (hy : m * y = 1) : inv4 m = y := by
  calc inv4 m = inv4 m * (m * y) := by rw [hy, mul_one]
    _ = (inv4 m * m) * y := by rw [mul_assoc]
    _ = y := by rw [inv4_mul m h, one_mul]

theorem det4_bottomRow (m : M4) (h : bottomRow m) : det4 m = det3 (rot m) := by
  obtain ⟨h0, h1, h2, h3⟩ := h
  simp [det4, det3, rot, Matrix.of_apply, castSucc0, castSucc1, castSucc2,
    h0, h1, h2, h3]


/-! ### Proper rotations -/

/-- A proper rotation: orthonormal columns and determinant `+1`. -/
def orthDet1 (m : M3) : Prop := Matrix.transpose m * m = 1 ∧ det3 m = 1

theorem orthDet1_one : orthDet1 (1 : M3) := ⟨by simp, det3_one⟩

theorem orthDet1_mul (a b : M3) (ha : orthDet1 a) (hb : orthDet1 b) :
    orthDet1 (a * b) := by
  constructor
  · rw [Matrix.transpose_mul]
    calc Matrix.transpose b * Matrix.transpose a * (a * b)
        = Matrix.transpose b * (Matrix.transpose a * a) * b := by
          rw [mul_assoc, mul_assoc, mul_assoc]
      _ = Matrix.transpose b * b := by rw [ha.1, mul_one]
      _ = 1 := hb.1
  · rw [det3_mul, ha.2, hb.2, one_mul]

theorem det3_ne_zero_of_orth (m : M3) (h : orthDet1 m) : det3 m ≠ 0 := by
  rw [h.2]; norm_num

theorem mul_transpose_of_orth (m : M3) (h : orthDet1 m) :
    m * Matrix.transpose m = 1 :=
  Matrix.mul_eq_one_comm.mp h.1

theorem orthDet1_transpose (m : M3) (h : orthDet1 m) :
    orthDet1 (Matrix.transpose m) := by
  constructor
  · rw [Matrix.transpose_transpose]
    exact mul_transpose_of_orth m h
  · rw [det3_transpose]
    exact h.2

theorem inv3_eq_transpose (m : M3) (h : orthDet1 m) :
    inv3 m = Matrix.transpose m :=
  inv3_unique m _ (det3_ne_zero_of_orth m h) (mul_transpose_of_orth m h)

theorem orthDet1_inv3 (m : M3) (h : orthDet1 m) : orthDet1 (inv3 m) := by
  rw [inv3_eq_transpose m h]
  exact orthDet1_transpose m h

theorem quatLiteral_orthDet1 (w x y z s : ℚ)
    (hs : (w * w + x * x + y * y + z * z) * s = 2) :
    orthDet1 (!![1 - (y * (y * s) + z * (z * s)), x * (y * s) - w * (z * s),
       x * (z * s) + w * (y * s);
       x * (y * s) + w * (z * s), 1 - (x * (x * s) + z * (z * s)),
       y * (z * s) - w * (x * s);
       x * (z * s) - w * (y * s), y * (z * s) + w * (x * s),
       1 - (x * (x * s) + y * (y * s))] : M3) := by
  constructor
  case right =>
    unfold det3
    simp [Matrix.transpose, Matrix.mul_apply, Fin.sum_univ_three,
      Matrix.one_apply, Matrix.vecHead, Matrix.vecTail, Matrix.cons_val',
      Matrix.cons_val_zero, Matrix.cons_val_one, Matrix.head_cons,
      Matrix.head_fin_const, Matrix.empty_val', Matrix.cons_val_fin_one,
      Matrix.of_apply, Function.comp]
    linear_combination (x * x * s + y * y * s + z * z * s) * hs
  case left =>
  ext i j
  fin_cases i <;> fin_cases j
  · simp [Matrix.transpose, Matrix.mul_apply, Fin.sum_univ_three,
      Matrix.one_apply, Matrix.vecHead, Matrix.vecTail, Matrix.cons_val',
      Matrix.cons_val_zero, Matrix.cons_val_one, Matrix.head_cons,
      Matrix.head_fin_const, Matrix.empty_val', Matrix.cons_val_fin_one,
      Matrix.of_apply, Function.comp]
    linear_combination (y * y * s + z * z * s) * hs
  · simp [Matrix.transpose, Matrix.mul_apply, Fin.sum_univ_three,
      Matrix.one_apply, Matrix.vecHead, Matrix.vecTail, Matrix.cons_val',
      Matrix.cons_val_zero, Matrix.cons_val_one, Matrix.head_cons,
      Matrix.head_fin_const, Matrix.empty_val', Matrix.cons_val_fin_one,
      Matrix.of_apply, Function.comp]
    linear_combination (-(x * y * s)) * hs
  · simp [Matrix.transpose, Matrix.mul_apply, Fin.sum_univ_three,
      Matrix.one_apply, Matrix.vecHead, Matrix.vecTail, Matrix.cons_val',
      Matrix.cons_val_zero, Matrix.cons_val_one, Matrix.head_cons,
      Matrix.head_fin_const, Matrix.empty_val', Matrix.cons_val_fin_one,
      Matrix.of_apply, Function.comp]
    linear_combination (-(x * z * s)) * hs
  · simp [Matrix.transpose, Matrix.mul_apply, Fin.sum_univ_three,
      Matrix.one_apply, Matrix.vecHead, Matrix.vecTail, Matrix.cons_val',
      Matrix.cons_val_zero, Matrix.cons_val_one, Matrix.head_cons,
      Matrix.head_fin_const, Matrix.empty_val', Matrix.cons_val_fin_one,
      Matrix.of_apply, Function.comp]
    linear_combination (-(x * y * s)) * hs
  · simp [Matrix.transpose, Matrix.mul_apply, Fin.sum_univ_three,
      Matrix.one_apply, Matrix.vecHead, Matrix.vecTail, Matrix.cons_val',
      Matrix.cons_val_zero, Matrix.cons_val_one, Matrix.head_cons,
      Matrix.head_fin_const, Matrix.empty_val', Matrix.cons_val_fin_one,
      Matrix.of_apply, Function.comp]
    linear_combination (x * x * s + z * z * s) * hs
  · simp [Matrix.transpose, Matrix.mul_apply, Fin.sum_univ_three,
      Matrix.one_apply, Matrix.vecHead, Matrix.vecTail, Matrix.cons_val',
      Matrix.cons_val_zero, Matrix.cons_val_one, Matrix.head_cons,
      Matrix.head_fin_const, Matrix.empty_val', Matrix.cons_val_fin_one,
      Matrix.of_apply, Function.comp]
    linear_combination (-(y * z * s)) * hs
  · simp [Matrix.transpose, Matrix.mul_apply, Fin.sum_univ_three,
      Matrix.one_apply, Matrix.vecHead, Matrix.vecTail, Matrix.cons_val',
      Matrix.cons_val_zero, Matrix.cons_val_one, Matrix.head_cons,
      Matrix.head_fin_const, Matrix.empty_val', Matrix.cons_val_fin_one,
      Matrix.of_apply, Function.comp]
    linear_combination (-(x * z * s)) * hs
  · simp [Matrix.transpose, Matrix.mul_apply, Fin.sum_univ_three,
      Matrix.one_apply, Matrix.vecHead, Matrix.vecTail, Matrix.cons_val',
      Matrix.cons_val_zero, Matrix.cons_val_one, Matrix.head_cons,
      Matrix.head_fin_const, Matrix.empty_val', Matrix.cons_val_fin_one,
      Matrix.of_apply, Function.comp]
    linear_combination (-(y * z * s)) * hs
  · simp [Matrix.transpose, Matrix.mul_apply, Fin.sum_univ_three,
      Matrix.one_apply, Matrix.vecHead, Matrix.vecTail, Matrix.cons_val',
      Matrix.cons_val_zero, Matrix.cons_val_one, Matrix.head_cons,
      Matrix.head_fin_const, Matrix.empty_val', Matrix.cons_val_fin_one,
      Matrix.of_apply, Function.comp]
    linear_combination (x * x * s + y * y * s) * hs

theorem quat2mat_orthDet1 (q : V4) : orthDet1 (quat2mat q) := by
  unfold quat2mat
  by_cases h : (q 0 * q 0 + q 1 * q 1 + q 2 * q 2 + q 3 * q 3) < FLOAT_EPS
  · simp only [h, if_true]
    exact orthDet1_one
  · simp only [h, if_false]
    have hpos : (0 : ℚ) < q 0 * q 0 + q 1 * q 1 + q 2 * q 2 + q 3 * q 3 := by
      rcases lt_or_le 0 (q 0 * q 0 + q 1 * q 1 + q 2 * q 2 + q 3 * q 3) with hq | hq
      · exact hq
      · exact absurd (lt_of_le_of_lt hq (by norm_num [FLOAT_EPS])) h
    have hne : (q 0 * q 0 + q 1 * q 1 + q 2 * q 2 + q 3 * q 3) ≠ 0 := ne_of_gt hpos
    exact quatLiteral_orthDet1 (q 0) (q 1) (q 2) (q 3) _ (by field_simp)

/-! ### Evaluation facts and the closeness predicate -/

theorem sqrtQ_one : sqrtQ 1 = 1 := by
  norm_num [sqrtQ]

theorem mat2euler_one : mat2euler (1 : M3) = ![0, 0, 0] := by
  unfold mat2euler
  rw [Matrix.one_fin_three]
  norm_num [Matrix.cons_val', Matrix.cons_val_zero, Matrix.cons_val_one,
    Matrix.head_cons, Matrix.head_fin_const, Matrix.empty_val',
    Matrix.cons_val_fin_one, Matrix.of_apply, sqrtQ_one, atan2Q, EPS4]

theorem npAllcloseZero_iff (v : V3) (t : ℚ) :
    npAllcloseZero v t = true ↔ ∀ i, |v i| ≤ t := by
  simp [npAllcloseZero]

theorem are_close_eq_and (a b : M4) (lin_tol ang_tol : ℚ) :
    are_close a b lin_tol ang_tol =
      (npAllcloseZero (transl (inv4 a * b)) lin_tol &&
        npAllcloseZero (mat2euler (rot (inv4 a * b))) ang_tol) := by
  unfold are_close
  cases hb : npAllcloseZero (transl (inv4 a * b)) lin_tol <;> simp [hb]

theorem are_close_true_iff (a b : M4) (lin_tol ang_tol : ℚ) :
    are_close a b lin_tol ang_tol = true ↔
      ((∀ i, |transl (inv4 a * b) i| ≤ lin_tol) ∧
       (∀ i, |mat2euler (rot (inv4 a * b)) i| ≤ ang_tol)) := by
  rw [are_close_eq_and]
  simp [npAllcloseZero_iff]

/-- A valid rigid pose: homogeneous bottom row and a proper rotation block. -/
def validPose (m : M4) : Prop := bottomRow m ∧ orthDet1 (rot m)

theorem det4_ne_zero_of_valid (m : M4) (h : validPose m) : det4 m ≠ 0 := by
  rw [det4_bottomRow m h.1, h.2.2]
  norm_num

theorem inv4_mul_self (m : M4) (h : validPose m) : inv4 m * m = 1 :=
  inv4_mul m (det4_ne_zero_of_valid m h)

theorem transl_one4 : transl (1 : M4) = fun _ => 0 := by
  funext i
  fin_cases i <;> simp [transl, Matrix.one_apply, castSucc0, castSucc1, castSucc2]

theorem rot_one4 : rot (1 : M4) = 1 := by
  ext i j
  fin_cases i <;> fin_cases j <;>
    simp [rot, Matrix.one_apply, castSucc0, castSucc1, castSucc2, Matrix.of_apply]

theorem are_close_self (a : M4) (lin_tol ang_tol : ℚ) (h : validPose a)
    (h1 : 0 ≤ lin_tol) (h2 : 0 ≤ ang_tol) :
    are_close a a lin_tol ang_tol = true := by
  rw [are_close_true_iff, inv4_mul_self a h]
  constructor
  · intro i
    rw [transl_one4]
    simpa using h1
  · intro i
    rw [rot_one4, mat2euler_one]
    fin_cases i <;> simpa using h2

/-! ### Pipeline lemmas -/

theorem bottomRow_TF : bottomRow TF_RUB2FLU := ⟨rfl, rfl, rfl, rfl⟩

theorem orthDet1_rotTF : orthDet1 (rot TF_RUB2FLU) := by
  constructor
  · ext i j
    fin_cases i <;> fin_cases j <;>
      norm_num [rot, TF_RUB2FLU, Matrix.transpose_apply, Matrix.mul_apply,
        Fin.sum_univ_three, Matrix.one_apply, castSucc0, castSucc1, castSucc2,
        Matrix.vecHead, Matrix.vecTail, Function.comp, Fin.ext_iff,
        Matrix.cons_val', Matrix.cons_val_zero, Matrix.cons_val_one,
        Matrix.head_cons, Matrix.head_fin_const, Matrix.empty_val',
        Matrix.cons_val_fin_one, Matrix.of_apply]
  · norm_num [rot, TF_RUB2FLU, det3, castSucc0, castSucc1, castSucc2,
      Matrix.cons_val', Matrix.cons_val_zero, Matrix.cons_val_one,
      Matrix.head_cons, Matrix.head_fin_const, Matrix.empty_val',
      Matrix.cons_val_fin_one, Matrix.of_apply]

theorem bottomRow_convertReceived (nat4 : M4) (p : V3) (q : V4)
    (hnat : bottomRow nat4) : bottomRow (convertReceived nat4 p q) := by
  unfold convertReceived
  exact bottomRow_mul _ _
    (bottomRow_setRot _ _
      (bottomRow_mul _ _ bottomRow_TF (bottomRow_compose _ _))) hnat

theorem rot_convertReceived (nat4 : M4) (p : V3) (q : V4)
    (hnat : bottomRow nat4) :
    rot (convertReceived nat4 p q) =
      rot TF_RUB2FLU * quat2mat q * inv3 (rot TF_RUB2FLU) * rot nat4 := by
  unfold convertReceived
  rw [rot_mul _ _ hnat, rot_setRot, rot_mul _ _ (bottomRow_compose _ _),
    rot_compose]

theorem orthDet1_convFactor (q : V4) :
    orthDet1 (rot TF_RUB2FLU * quat2mat q * inv3 (rot TF_RUB2FLU)) :=
  orthDet1_mul _ _ (orthDet1_mul _ _ orthDet1_rotTF (quat2mat_orthDet1 q))
    (orthDet1_inv3 _ orthDet1_rotTF)

theorem det3_rot_convertReceived_ne (nat4 : M4) (p : V3) (q : V4)
    (hnat : bottomRow nat4) (hdet : det3 (rot nat4) ≠ 0) :
    det3 (rot (convertReceived nat4 p q)) ≠ 0 := by
  rw [rot_convertReceived nat4 p q hnat, det3_mul]
  exact mul_ne_zero (det3_ne_zero_of_orth _ (orthDet1_convFactor q)) hdet

theorem update_moveFalse (s : TeleopState) (m : Msg) (p : Vec3Msg) (o : QuatMsg)
    (hm : m.move = some false) (hp : m.position = some p)
    (ho : m.orientation = some o) :
    update s m =
      .ok ({ s with relative_pose_init := none, absolute_pose_init := none },
        [(s.pose, m)]) := by
  unfold update
  rw [hm, hp, ho]
  rfl

theorem update_jump (s : TeleopState) (m : Msg) (p : Vec3Msg) (o : QuatMsg)
    (q : M4) (hm : m.move = some true) (hp : m.position = some p)
    (ho : m.orientation = some o) (hprev : s.previous_received_pose = some q)
    (hfar : are_close
      (convertReceived s.natural_phone_pose ![p.x, p.y, p.z]
        ![o.w, o.x, o.y, o.z]) q (1 / 10) (radians 35) = false) :
    update s m =
      .ok ({ s with
              relative_pose_init := none
              previous_received_pose :=
                some (convertReceived s.natural_phone_pose ![p.x, p.y, p.z]
                  ![o.w, o.x, o.y, o.z]) }, []) := by
  unfold update
  rw [hm, hp, ho]
  simp only [hprev, hfar, Bool.false_eq_true, Bool.true_eq_false, if_false]

theorem update_accept_of_none (s : TeleopState) (m : Msg) (p : Vec3Msg)
    (o : QuatMsg) (hm : m.move = some true) (hp : m.position = some p)
    (ho : m.orientation = some o) (hprev : s.previous_received_pose = none) :
    update s m = acceptPose s m
      (convertReceived s.natural_phone_pose ![p.x, p.y, p.z]
        ![o.w, o.x, o.y, o.z]) := by
  unfold update
  rw [hm, hp, ho]
  simp [hprev]

theorem update_accept_of_close (s : TeleopState) (m : Msg) (p : Vec3Msg)
    (o : QuatMsg) (q : M4) (hm : m.move = some true) (hp : m.position = some p)
    (ho : m.orientation = some o) (hprev : s.previous_received_pose = some q)
    (hclose : are_close
      (convertReceived s.natural_phone_pose ![p.x, p.y, p.z]
        ![o.w, o.x, o.y, o.z]) q (1 / 10) (radians 35) = true) :
    update s m = acceptPose s m
      (convertReceived s.natural_phone_pose ![p.x, p.y, p.z]
        ![o.w, o.x, o.y, o.z]) := by
  unfold update
  rw [hm, hp, ho]
  simp only [hprev, hclose, Bool.true_eq_false, if_false, if_true]

theorem acceptPose_of_none (s : TeleopState) (m : Msg) (r : M4)
    (hrel : s.relative_pose_init = none) :
    acceptPose s m r =
      .ok ({ s with
              relative_pose_init := some r
              absolute_pose_init := some s.pose
              previous_received_pose := none
              pose := compose (transl s.pose + (transl r - transl r))
                (rot r * inv3 (rot r) * rot s.pose) },
        [(compose (transl s.pose + (transl r - transl r))
            (rot r * inv3 (rot r) * rot s.pose), m)]) := by
  unfold acceptPose
  simp [hrel]

theorem acceptPose_of_some (s : TeleopState) (m : Msg) (r rel a4 : M4)
    (hrel : s.relative_pose_init = some rel)
    (habs : s.absolute_pose_init = some a4) :
    acceptPose s m r =
      .ok ({ s with
              previous_received_pose := some r
              pose := compose (transl a4 + (transl r - transl rel))
                (rot r * inv3 (rot rel) * rot a4) },
        [(compose (transl a4 + (transl r - transl rel))
            (rot r * inv3 (rot rel) * rot a4), m)]) := by
  unfold acceptPose
  simp [hrel, habs]

/-! ### Concrete scenario helpers -/

/-- An incoming sample with all fields present. -/
def mkMsg (move : Bool) (px py pz qw qx qy qz : ℚ) : Msg :=
  { move := some move
    position := some { x := px, y := py, z := pz }
    orientation := some { w := qw, x := qx, y := qy, z := qz } }

/-- The reference-scenario tracker: natural orientation offset Euler
`[0,0,0]` (identity rotation) and position offset `[0,0,0]`. -/
def s0 : TeleopState := initState ![0, 0, 0] 1

/-- A `move=true` sample at device position `(0, py, 0)` with the identity
quaternion. -/
def msgMove (py : ℚ) : Msg := mkMsg true 0 py 0 1 0 0 0

/-- A `move=false` (released) sample. -/
def msgRelease : Msg := mkMsg false 0 0 0 1 0 0 0

theorem vec3_zero : (![0, 0, 0] : V3) = 0 := by
  funext i
  fin_cases i <;> rfl

theorem compose_zero_one : compose 0 1 = 1 := by
  ext i j
  fin_cases i <;> fin_cases j <;>
    norm_num [compose, Matrix.one_apply, Matrix.cons_val', Matrix.cons_val_zero,
      Matrix.cons_val_one, Matrix.head_cons, Matrix.head_fin_const,
      Matrix.empty_val', Matrix.cons_val_fin_one, Matrix.of_apply, Fin.ext_iff]

theorem quat2mat_idq : quat2mat ![1, 0, 0, 0] = 1 := by
  unfold quat2mat
  norm_num [FLOAT_EPS, Matrix.cons_val', Matrix.cons_val_zero,
    Matrix.cons_val_one, Matrix.head_cons, Matrix.head_fin_const,
    Matrix.empty_val', Matrix.cons_val_fin_one, Matrix.of_apply]
  ext i j
  fin_cases i <;> fin_cases j <;>
    norm_num [Matrix.one_apply, Matrix.cons_val', Matrix.cons_val_zero,
      Matrix.cons_val_one, Matrix.head_cons, Matrix.head_fin_const,
      Matrix.empty_val', Matrix.cons_val_fin_one, Matrix.of_apply, Fin.ext_iff]

theorem quat2mat_zeroq : quat2mat ![0, 0, 0, 0] = 1 := by
  unfold quat2mat
  norm_num [FLOAT_EPS, Matrix.cons_val', Matrix.cons_val_zero,
    Matrix.cons_val_one, Matrix.head_cons, Matrix.head_fin_const,
    Matrix.empty_val', Matrix.cons_val_fin_one, Matrix.of_apply]

theorem transl_TF : transl TF_RUB2FLU = 0 := by
  funext i
  fin_cases i <;> rfl

theorem convert_of_quat2mat_one (p : V3) (qv : V4) (hq : quat2mat qv = 1) :
    convertReceived (compose ![0, 0, 0] 1) p qv =
      compose ((rot TF_RUB2FLU).mulVec p) 1 := by
  unfold convertReceived
  rw [hq]
  show setRot (TF_RUB2FLU * compose p 1)
      (rot (TF_RUB2FLU * compose p 1) * inv3 (rot TF_RUB2FLU)) *
      compose ![0, 0, 0] 1 = compose ((rot TF_RUB2FLU).mulVec p) 1
  rw [setRot_eq_compose _ _ (bottomRow_mul _ _ bottomRow_TF (bottomRow_compose _ _))]
  rw [rot_mul _ _ (bottomRow_compose _ _), rot_compose, mul_one,
    mul_inv3 _ (det3_ne_zero_of_orth _ orthDet1_rotTF)]
  rw [transl_mul _ _ (bottomRow_compose _ _), transl_compose, transl_TF,
    add_zero]
  rw [compose_mul, Matrix.one_mulVec, vec3_zero, zero_add, mul_one]

theorem mulVecTF (a b c : ℚ) :
    (rot TF_RUB2FLU).mulVec ![a, b, c] = ![-c, -a, b] := by
  funext i
  fin_cases i <;>
    norm_num [rot, TF_RUB2FLU, Matrix.mulVec, Matrix.dotProduct,
      Fin.sum_univ_three, castSucc0, castSucc1, castSucc2,
      Matrix.cons_val', Matrix.cons_val_zero, Matrix.cons_val_one,
      Matrix.head_cons, Matrix.head_fin_const, Matrix.empty_val',
      Matrix.cons_val_fin_one, Matrix.of_apply]

theorem inv4_compose_one (t : V3) : inv4 (compose t 1) = compose (-t) 1 := by
  refine inv4_unique _ _ ?_ ?_
  · rw [det4_bottomRow _ (bottomRow_compose _ _), rot_compose, det3_one]
    norm_num
  · rw [compose_mul, Matrix.one_mulVec, mul_one]
    have h1 : (-t) + t = 0 := neg_add_cancel t
    rw [h1, compose_zero_one]


theorem d_compose_one (t u : V3) :
    inv4 (compose t 1) * compose u 1 = compose (u - t) 1 := by
  rw [inv4_compose_one, compose_mul, Matrix.one_mulVec, mul_one]
  have h1 : u + -t = u - t := by
    funext i
    simp [sub_eq_add_neg]
  rw [h1]

theorem are_close_compose_one (t u : V3) (lin_tol ang_tol : ℚ) :
    are_close (compose t 1) (compose u 1) lin_tol ang_tol =
      (npAllcloseZero (u - t) lin_tol && npAllcloseZero ![0, 0, 0] ang_tol) := by
  rw [are_close_eq_and, d_compose_one, transl_compose, rot_compose,
    mat2euler_one]

theorem accept_pose_self (P r : M4) (hP : bottomRow P)
    (hr : det3 (rot r) ≠ 0) :
    compose (transl P + (transl r - transl r))
      (rot r * inv3 (rot r) * rot P) = P := by
  rw [sub_self, add_zero, mul_inv3 _ hr, one_mul, compose_transl_rot P hP]

theorem step2_pose (t0 t1 : V3) :
    compose (transl (1 : M4) + (transl (compose t1 1) - transl (compose t0 1)))
      (rot (compose t1 1) * inv3 (rot (compose t0 1)) * rot (1 : M4)) =
      compose (t1 - t0) 1 := by
  rw [transl_one4, transl_compose, transl_compose, rot_compose, rot_compose,
    rot_one4, inv3_one, mul_one, mul_one]
  have h0 : (fun _ => (0:ℚ)) = (0 : V3) := rfl
  rw [h0, zero_add]

theorem conv_msgMove (y : ℚ) :
    convertReceived (compose ![0, 0, 0] 1) ![(0:ℚ), y, 0] ![1, 0, 0, 0] =
      compose ![0, 0, y] 1 := by
  rw [convert_of_quat2mat_one _ _ quat2mat_idq, mulVecTF]
  have h : (![-(0:ℚ), -0, y] : V3) = ![0, 0, y] := by
    funext i
    fin_cases i <;> norm_num
  rw [h]

/-! ### Claims -/

theorem bottomRow_one : bottomRow (1 : M4) := ⟨rfl, rfl, rfl, rfl⟩

theorem det3_rot_c0 : det3 (rot (compose ![(0:ℚ), 0, 0] 1)) ≠ 0 := by
  rw [rot_compose, det3_one]
  norm_num

/-- Tracker state after the first reference-scenario sample. -/
def sC1a : TeleopState :=
  { relative_pose_init := some (compose ![0, 0, 0] 1)
    absolute_pose_init := some 1
    previous_received_pose := none
    pose := 1
    natural_phone_pose := compose ![0, 0, 0] 1 }

/-- Tracker state after the second reference-scenario sample. -/
def sC1b : TeleopState :=
  { relative_pose_init := some (compose ![0, 0, 0] 1)
    absolute_pose_init := some 1
    previous_received_pose := some (compose ![0, 0, 1/20] 1)
    pose := compose ![0, 0, 1/20] 1
    natural_phone_pose := compose ![0, 0, 0] 1 }

/-- Tracker state after the third reference-scenario sample. -/
def sC1c : TeleopState :=
  { relative_pose_init := some (compose ![0, 0, 0] 1)
    absolute_pose_init := some 1
    previous_received_pose := some (compose ![0, 0, 1/10] 1)
    pose := compose ![0, 0, 1/10] 1
    natural_phone_pose := compose ![0, 0, 0] 1 }

theorem c1_step1 :
    update s0 (msgMove 0) = .ok (sC1a, [((1 : M4), msgMove 0)]) := by
  have h : update s0 (msgMove 0) =
      acceptPose s0 (msgMove 0)
        (convertReceived (compose ![0, 0, 0] 1) ![(0:ℚ), 0, 0] ![1, 0, 0, 0]) :=
    update_accept_of_none s0 (msgMove 0) ⟨0, 0, 0⟩ ⟨1, 0, 0, 0⟩ rfl rfl rfl rfl
  rw [h, conv_msgMove 0,
    acceptPose_of_none s0 (msgMove 0) (compose ![0, 0, 0] 1) rfl,
    accept_pose_self _ _ (show bottomRow s0.pose from bottomRow_one) det3_rot_c0]
  rfl

theorem c1_step2 :
    update sC1a (msgMove (1/20)) =
      .ok (sC1b, [(compose ![0, 0, 1/20] 1, msgMove (1/20))]) := by
  have h : update sC1a (msgMove (1/20)) =
      acceptPose sC1a (msgMove (1/20))
        (convertReceived (compose ![0, 0, 0] 1) ![(0:ℚ), 1/20, 0] ![1, 0, 0, 0]) :=
    update_accept_of_none sC1a (msgMove (1/20)) ⟨0, 1/20, 0⟩ ⟨1, 0, 0, 0⟩
      rfl rfl rfl rfl
  rw [h, conv_msgMove (1/20),
    acceptPose_of_some sC1a (msgMove (1/20)) (compose ![0, 0, 1/20] 1)
      (compose ![0, 0, 0] 1) 1 rfl rfl]
  have hp : compose (transl (1 : M4) +
      (transl (compose ![0, 0, 1/20] 1) - transl (compose ![(0:ℚ), 0, 0] 1)))
      (rot (compose ![0, 0, 1/20] 1) * inv3 (rot (compose ![(0:ℚ), 0, 0] 1)) *
        rot (1 : M4)) = compose ![0, 0, 1/20] 1 := by
    rw [step2_pose]
    have hv : (![(0:ℚ), 0, 1/20] - ![0, 0, 0] : V3) = ![0, 0, 1/20] := by
      rw [vec3_zero, sub_zero]
    rw [hv]
  rw [hp]
  rfl

theorem c1_close23 :
    are_close (compose ![(0:ℚ), 0, 1/10] 1) (compose ![(0:ℚ), 0, 1/20] 1)
      (1/10) (radians 35) = true := by
  rw [are_close_compose_one]
  have h1 : npAllcloseZero (![(0:ℚ), 0, 1/20] - ![0, 0, 1/10]) (1/10) = true := by
    rw [npAllcloseZero_iff]
    intro i
    fin_cases i <;>
      norm_num [abs_le, Pi.sub_apply, Matrix.cons_val_zero, Matrix.cons_val_one,
        Matrix.head_cons, Matrix.cons_val_two, Matrix.vecTail, Function.comp]
  have h2 : npAllcloseZero ![(0:ℚ), 0, 0] (radians 35) = true := by
    rw [npAllcloseZero_iff]
    intro i
    fin_cases i <;>
      norm_num [abs_le, radians, piQ, Matrix.cons_val_zero, Matrix.cons_val_one,
        Matrix.head_cons, Matrix.cons_val_two, Matrix.vecTail, Function.comp]
  rw [h1, h2]
  rfl

theorem c1_step3 :
    update sC1b (msgMove (1/10)) =
      .ok (sC1c, [(compose ![0, 0, 1/10] 1, msgMove (1/10))]) := by
  have hclose : are_close
      (convertReceived (compose ![0, 0, 0] 1) ![(0:ℚ), 1/10, 0] ![1, 0, 0, 0])
      (compose ![0, 0, 1/20] 1) (1/10) (radians 35) = true := by
    rw [conv_msgMove (1/10)]
    exact c1_close23
  have h : update sC1b (msgMove (1/10)) =
      acceptPose sC1b (msgMove (1/10))
        (convertReceived (compose ![0, 0, 0] 1) ![(0:ℚ), 1/10, 0] ![1, 0, 0, 0]) :=
    update_accept_of_close sC1b (msgMove (1/10)) ⟨0, 1/10, 0⟩ ⟨1, 0, 0, 0⟩
      (compose ![0, 0, 1/20] 1) rfl rfl rfl rfl hclose
  rw [h, conv_msgMove (1/10),
    acceptPose_of_some sC1b (msgMove (1/10)) (compose ![0, 0, 1/10] 1)
      (compose ![0, 0, 0] 1) 1 rfl rfl]
  have hp : compose (transl (1 : M4) +
      (transl (compose ![0, 0, 1/10] 1) - transl (compose ![(0:ℚ), 0, 0] 1)))
      (rot (compose ![0, 0, 1/10] 1) * inv3 (rot (compose ![(0:ℚ), 0, 0] 1)) *
        rot (1 : M4)) = compose ![0, 0, 1/10] 1 := by
    rw [step2_pose]
    have hv : (![(0:ℚ), 0, 1/10] - ![0, 0, 0] : V3) = ![0, 0, 1/10] := by
      rw [vec3_zero, sub_zero]
    rw [hv]
  rw [hp]
  rfl


/-- C1: starting from a fresh tracker whose natural orientation offset is
Euler `[0,0,0]` (identity rotation), position offset `[0,0,0]`, and
`current_output_pose` the identity, processing three `move=true` samples with
identity orientation and device positions `(0,0,0)`, `(0,0.05,0)`,
`(0,0.1,0)` yields output poses whose translation Z component is `0`, then
`0.05`, then `0.10`, the other translation components staying `0` (the
device's native Y motion appears on the output Z axis after the RUB->FLU
remap). -/
theorem c1_incremental_tracking :
    runUpdates s0 [msgMove 0, msgMove (1/20), msgMove (1/10)] =
      .ok (sC1c, [((1 : M4), msgMove 0),
        (compose ![0, 0, 1/20] 1, msgMove (1/20)),
        (compose ![0, 0, 1/10] 1, msgMove (1/10))]) ∧
    transl (1 : M4) = ![0, 0, 0] ∧
    transl (compose ![(0:ℚ), 0, 1/20] 1) = ![0, 0, 1/20] ∧
    transl (compose ![(0:ℚ), 0, 1/10] 1) = ![0, 0, 1/10] := by
  refine ⟨?_, ?_, transl_compose _ _, transl_compose _ _⟩
  · simp only [runUpdates, c1_step1, c1_step2, c1_step3, List.cons_append,
      List.nil_append]
  · rw [transl_one4]
    exact vec3_zero.symm

/-- C2: a `move=true` sample whose converted pose fails the `are_close`
check (lin_tol `0.1`, ang_tol `35` degrees) against the stored previous
received pose leaves `current_output_pose` (and `absolute_pose_init`)
unchanged, clears `relative_pose_init`, stores the new converted pose in
`previous_received_pose`, and notifies no subscriber. -/
theorem c2_jump_rejection (s : TeleopState) (m : Msg) (p : Vec3Msg)
    (o : QuatMsg) (q : M4) (hm : m.move = some true)
    (hp : m.position = some p) (ho : m.orientation = some o)
    (hprev : s.previous_received_pose = some q)
    (hfar : are_close (convertReceived s.natural_phone_pose
      ![p.x, p.y, p.z] ![o.w, o.x, o.y, o.z]) q (1 / 10) (radians 35) = false) :
    update s m = .ok ({ s with
        relative_pose_init := none
        previous_received_pose := some (convertReceived s.natural_phone_pose
          ![p.x, p.y, p.z] ![o.w, o.x, o.y, o.z]) }, []) :=
  update_jump s m p o q hm hp ho hprev hfar

/-- A concrete tracker state mid-gesture, identity output pose, with the
device pose at the origin stored as the previous received pose. -/
def sJump : TeleopState :=
  { relative_pose_init := some 1
    absolute_pose_init := some 1
    previous_received_pose := some (compose ![0, 0, 0] 1)
    pose := 1
    natural_phone_pose := compose ![0, 0, 0] 1 }

/-- A `move=true` sample one metre away from the previous one. -/
def msgFar : Msg := mkMsg true 1 0 0 1 0 0 0

theorem conv_msgFar :
    convertReceived (compose ![0, 0, 0] 1) ![(1:ℚ), 0, 0] ![1, 0, 0, 0] =
      compose ![0, -1, 0] 1 := by
  rw [convert_of_quat2mat_one _ _ quat2mat_idq, mulVecTF]
  have h : (![-(0:ℚ), -1, 0] : V3) = ![0, -1, 0] := by
    funext i
    fin_cases i <;> norm_num
  rw [h]

theorem are_close_far :
    are_close (compose ![(0:ℚ), -1, 0] 1) (compose ![(0:ℚ), 0, 0] 1)
      (1/10) (radians 35) = false := by
  rw [are_close_compose_one]
  have h1 : npAllcloseZero (![(0:ℚ), 0, 0] - ![0, -1, 0]) (1/10) = false := by
    cases hb : npAllcloseZero (![(0:ℚ), 0, 0] - ![0, -1, 0]) (1/10) with
    | false => rfl
    | true =>
      have := (npAllcloseZero_iff _ _).mp hb 1
      norm_num [Pi.sub_apply, Matrix.cons_val_one, Matrix.head_cons] at this
  rw [h1]
  rfl

theorem c2_jump_rejection_witness :
    update sJump msgFar = .ok ({ sJump with
        relative_pose_init := none
        previous_received_pose := some (convertReceived
          sJump.natural_phone_pose ![(1:ℚ), 0, 0] ![1, 0, 0, 0]) }, []) := by
  have hfar : are_close (convertReceived sJump.natural_phone_pose
      ![(1:ℚ), 0, 0] ![1, 0, 0, 0]) (compose ![0, 0, 0] 1)
      (1/10) (radians 35) = false := by
    show are_close (convertReceived (compose ![0, 0, 0] 1)
      ![(1:ℚ), 0, 0] ![1, 0, 0, 0]) (compose ![0, 0, 0] 1)
      (1/10) (radians 35) = false
    rw [conv_msgFar]
    exact are_close_far
  exact c2_jump_rejection sJump msgFar ⟨1, 0, 0⟩ ⟨1, 0, 0, 0⟩
    (compose ![0, 0, 0] 1) rfl rfl rfl rfl hfar

/-- C3: from any state with no relative reference (fresh construction, after
a pause, or after a jump reset) whose output pose is homogeneous and whose
natural phone pose has an invertible rotation block, the next `move=true`
sample leaves `current_output_pose` unchanged, whatever its position and
orientation: either it is itself jump-rejected, or it merely re-initializes
the references and recomputes the same pose. -/
theorem c3_gesture_start_invariance (s : TeleopState) (m : Msg)
    (p : Vec3Msg) (o : QuatMsg) (hm : m.move = some true)
    (hp : m.position = some p) (ho : m.orientation = some o)
    (hrel : s.relative_pose_init = none) (hpose : bottomRow s.pose)
    (hnatB : bottomRow s.natural_phone_pose)
    (hnat : det3 (rot s.natural_phone_pose) ≠ 0) :
    ∃ s' ns, update s m = .ok (s', ns) ∧ s'.pose = s.pose := by
  have hdet : det3 (rot (convertReceived s.natural_phone_pose
      ![p.x, p.y, p.z] ![o.w, o.x, o.y, o.z])) ≠ 0 :=
    det3_rot_convertReceived_ne _ _ _ hnatB hnat
  cases hprev : s.previous_received_pose with
  | none =>
    have h1 := update_accept_of_none s m p o hm hp ho hprev
    have h2 := acceptPose_of_none s m (convertReceived s.natural_phone_pose
      ![p.x, p.y, p.z] ![o.w, o.x, o.y, o.z]) hrel
    exact ⟨_, _, h1.trans h2, accept_pose_self s.pose _ hpose hdet⟩
  | some q =>
    cases hc : are_close (convertReceived s.natural_phone_pose
        ![p.x, p.y, p.z] ![o.w, o.x, o.y, o.z]) q (1/10) (radians 35) with
    | false => exact ⟨_, _, update_jump s m p o q hm hp ho hprev hc, rfl⟩
    | true =>
      have h1 := update_accept_of_close s m p o q hm hp ho hprev hc
      have h2 := acceptPose_of_none s m (convertReceived s.natural_phone_pose
        ![p.x, p.y, p.z] ![o.w, o.x, o.y, o.z]) hrel
      exact ⟨_, _, h1.trans h2, accept_pose_self s.pose _ hpose hdet⟩

theorem c3_gesture_start_invariance_witness :
    ∃ s' ns, update s0 (mkMsg true 5 7 9 1 2 3 4) = .ok (s', ns) ∧
      s'.pose = s0.pose := by
  refine c3_gesture_start_invariance s0 (mkMsg true 5 7 9 1 2 3 4)
    ⟨5, 7, 9⟩ ⟨1, 2, 3, 4⟩ rfl rfl rfl rfl bottomRow_one
    (bottomRow_compose _ _) ?_
  show det3 (rot (compose ![(0:ℚ), 0, 0] 1)) ≠ 0
  rw [rot_compose, det3_one]
  norm_num

/-- C4: any finite sequence of `move=false` samples processes successfully
and leaves `current_output_pose` exactly as it was before the first sample;
in particular one pause sample and many repeated pause samples have the same
(null) effect on the output pose. -/
theorem c4_pause_idempotent (s : TeleopState) (ms : List Msg)
    (h : ∀ m ∈ ms, m.move = some false ∧ m.position.isSome ∧
      m.orientation.isSome) :
    ∃ s' ns, runUpdates s ms = .ok (s', ns) ∧ s'.pose = s.pose := by
  induction ms generalizing s with
  | nil => exact ⟨s, [], rfl, rfl⟩
  | cons m ms ih =>
    obtain ⟨hm, hp, ho⟩ := h m (List.mem_cons_self m ms)
    obtain ⟨p, hp2⟩ := Option.isSome_iff_exists.mp hp
    obtain ⟨o, ho2⟩ := Option.isSome_iff_exists.mp ho
    have hu := update_moveFalse s m p o hm hp2 ho2
    obtain ⟨s2, ns, hrun, hpose⟩ :=
      ih { s with relative_pose_init := none, absolute_pose_init := none }
        (fun m2 hm2 => h m2 (List.mem_cons_of_mem m hm2))
    refine ⟨s2, (s.pose, m) :: ns, ?_, hpose⟩
    simp only [runUpdates, hu, hrun, List.cons_append, List.nil_append]

theorem c4_pause_idempotent_witness :
    ∃ s' ns, runUpdates s0 [msgRelease, msgRelease] = .ok (s', ns) ∧
      s'.pose = s0.pose := by
  refine c4_pause_idempotent s0 [msgRelease, msgRelease] ?_
  intro m hm
  simp only [List.mem_cons, List.not_mem_nil, or_false] at hm
  rcases hm with h | h <;> subst h <;> exact ⟨rfl, rfl, rfl⟩

/-- C5: `are_close a b lin_tol ang_tol` returns true exactly when every
translation component of the relative transform `inv(a) @ b` is within
`lin_tol` of zero and every Euler angle of its rotation block is within
`ang_tol` of zero (so it is false whenever either difference exceeds its
tolerance, true otherwise); and for any valid rigid pose `a` and nonnegative
tolerances, `are_close a a` is true (reflexivity). -/
theorem c5_are_close_spec (a b : M4) (lin_tol ang_tol : ℚ)
    (ha : validPose a) (h1 : 0 ≤ lin_tol) (h2 : 0 ≤ ang_tol) :
    (are_close a b lin_tol ang_tol = true ↔
      ((∀ i, |transl (inv4 a * b) i| ≤ lin_tol) ∧
       (∀ i, |mat2euler (rot (inv4 a * b)) i| ≤ ang_tol))) ∧
    are_close a a lin_tol ang_tol = true :=
  ⟨are_close_true_iff a b lin_tol ang_tol,
    are_close_self a lin_tol ang_tol ha h1 h2⟩

theorem c5_are_close_spec_witness :
    (are_close 1 (compose ![(1:ℚ)/20, 0, 0] 1) (1/10) (radians 35) = true ↔
      ((∀ i, |transl (inv4 1 * compose ![(1:ℚ)/20, 0, 0] 1) i| ≤ 1/10) ∧
       (∀ i, |mat2euler (rot (inv4 1 * compose ![(1:ℚ)/20, 0, 0] 1)) i| ≤
         radians 35))) ∧
    are_close 1 1 (1/10) (radians 35) = true := by
  refine c5_are_close_spec 1 (compose ![(1:ℚ)/20, 0, 0] 1) (1/10)
    (radians 35) ⟨bottomRow_one, ?_⟩ (by norm_num) (by norm_num [radians, piQ])
  rw [rot_one4]
  exact orthDet1_one

/-- A subscriber whose callback body raises. -/
def cbRaise : Callback := ⟨fun _ _ => .error .raised⟩

/-- A subscriber whose callback returns normally. -/
def cbOk : Callback := ⟨fun _ _ => .ok ()⟩

/-- C6 counterexample: with a raising first subscriber and a healthy second
one, only index 0 is invoked — the later-registered handler is skipped and
the exception propagates out of the fan-out loop, contrary to the claim. -/
theorem c6_counterexample :
    notify_subscribers [cbRaise, cbOk] (1 : M4) msgRelease =
      ([0], some .raised) ∧ (1 : ℕ) ∉ ([0] : List ℕ) :=
  ⟨rfl, by simp⟩

/-- C6 (amended): subscribers are invoked synchronously in registration
order (the invoked indices are exactly `0, 1, ...`); all of them run iff no
handler raises; and when a handler raises, the exception propagates out of
`__notify_subscribers` and the raiser is the last handler invoked — every
later-registered handler is skipped. -/
theorem c6_fanout_ordering (cbs : List Callback) (pose : M4) (msg : Msg) :
    (notify_subscribers cbs pose msg).1 =
      List.range (notify_subscribers cbs pose msg).1.length ∧
    (notify_subscribers cbs pose msg).1.length ≤ cbs.length ∧
    ((notify_subscribers cbs pose msg).2 = none →
      (notify_subscribers cbs pose msg).1.length = cbs.length) ∧
    (∀ e, (notify_subscribers cbs pose msg).2 = some e →
      1 ≤ (notify_subscribers cbs pose msg).1.length ∧
      ∃ cb, cbs[(notify_subscribers cbs pose msg).1.length - 1]? = some cb ∧
        cb.run pose msg = .error e) := by
  induction cbs with
  | nil =>
    exact ⟨rfl, Nat.le_refl 0, fun _ => rfl, fun e he => absurd he (by simp [notify_subscribers])⟩
  | cons c cs ih =>
    cases hr : c.run pose msg with
    | error e0 =>
      have hn : notify_subscribers (c :: cs) pose msg = ([0], some e0) := by
        simp [notify_subscribers, hr]
      rw [hn]
      refine ⟨rfl, by simp, by simp, ?_⟩
      intro e he
      cases e
      cases e0
      exact ⟨by simp, c, by simp, hr⟩
    | ok u =>
      have hn : notify_subscribers (c :: cs) pose msg =
          (0 :: (notify_subscribers cs pose msg).1.map (· + 1),
            (notify_subscribers cs pose msg).2) := by
        simp [notify_subscribers, hr]
      obtain ⟨ih1, ih2, ih3, ih4⟩ := ih
      rw [hn]
      refine ⟨?_, ?_, ?_, ?_⟩
      · simp only [List.length_cons, List.length_map]
        rw [List.range_succ_eq_map]
        have : (notify_subscribers cs pose msg).1.map (· + 1) =
            (List.range (notify_subscribers cs pose msg).1.length).map Nat.succ := by
          rw [← ih1]
        rw [this]
      · simp only [List.length_cons, List.length_map]
        exact Nat.succ_le_succ ih2
      · intro hnone
        simp only [List.length_cons, List.length_map]
        rw [ih3 hnone]
      · intro e he
        obtain ⟨hge, cb, hget, hrun⟩ := ih4 e he
        obtain ⟨k, hk⟩ : ∃ k, (notify_subscribers cs pose msg).1.length = k + 1 :=
          ⟨(notify_subscribers cs pose msg).1.length - 1,
            (Nat.sub_add_cancel hge).symm⟩
        refine ⟨by simp, cb, ?_, hrun⟩
        simp only [List.length_cons, List.length_map, hk]
        rw [hk] at hget
        simpa using hget

theorem c6_fanout_ordering_witness :
    (notify_subscribers [cbOk] (1 : M4) msgRelease).1.length = 1 :=
  (c6_fanout_ordering [cbOk] (1 : M4) msgRelease).2.2.1 rfl

/-- The converted pose of the sample carried by a well-formed message, as
`Teleop.__update` computes it. -/
def convRecv (s : TeleopState) (p : Vec3Msg) (o : QuatMsg) : M4 :=
  convertReceived s.natural_phone_pose ![p.x, p.y, p.z] ![o.w, o.x, o.y, o.z]

theorem convRecv_def (s : TeleopState) (p : Vec3Msg) (o : QuatMsg) :
    convRecv s p o =
      convertReceived s.natural_phone_pose ![p.x, p.y, p.z]
        ![o.w, o.x, o.y, o.z] := rfl

theorem acceptPose_of_some_none (s : TeleopState) (m : Msg) (r rel : M4)
    (hrel : s.relative_pose_init = some rel)
    (habs : s.absolute_pose_init = none) :
    acceptPose s m r = .error .noneSubscript := by
  unfold acceptPose
  simp [hrel, habs]

/-- Complete case analysis of a successful `Teleop.__update` call: it is a
pause, a jump rejection, a gesture initialization, or an in-gesture
compounding step. -/
theorem update_ok_cases (s : TeleopState) (m : Msg) (s' : TeleopState)
    (ns : List (M4 × Msg)) (h : update s m = .ok (s', ns)) :
    (∃ p o, m.move = some false ∧ m.position = some p ∧
      m.orientation = some o ∧
      s' = { s with relative_pose_init := none, absolute_pose_init := none } ∧
      ns = [(s.pose, m)]) ∨
    (∃ p o q, m.move = some true ∧ m.position = some p ∧
      m.orientation = some o ∧ s.previous_received_pose = some q ∧
      are_close (convRecv s p o) q (1 / 10) (radians 35) = false ∧
      s' = { s with
        relative_pose_init := none
        previous_received_pose := some (convRecv s p o) } ∧ ns = []) ∨
    (∃ p o, m.move = some true ∧ m.position = some p ∧
      m.orientation = some o ∧ s.relative_pose_init = none ∧
      s' = { s with
        relative_pose_init := some (convRecv s p o)
        absolute_pose_init := some s.pose
        previous_received_pose := none
        pose := compose
          (transl s.pose + (transl (convRecv s p o) - transl (convRecv s p o)))
          (rot (convRecv s p o) * inv3 (rot (convRecv s p o)) * rot s.pose) } ∧
      ns = [(s'.pose, m)]) ∨
    (∃ p o rel a4, m.move = some true ∧ m.position = some p ∧
      m.orientation = some o ∧ s.relative_pose_init = some rel ∧
      s.absolute_pose_init = some a4 ∧
      s' = { s with
        previous_received_pose := some (convRecv s p o)
        pose := compose (transl a4 + (transl (convRecv s p o) - transl rel))
          (rot (convRecv s p o) * inv3 (rot rel) * rot a4) } ∧
      ns = [(s'.pose, m)]) := by
  cases hmv : m.move with
  | none =>
    unfold update at h
    rw [hmv] at h
    exact Except.noConfusion h
  | some mv =>
  cases hpos : m.position with
  | none =>
    unfold update at h
    rw [hmv, hpos] at h
    exact Except.noConfusion h
  | some p =>
  cases hor : m.orientation with
  | none =>
    unfold update at h
    rw [hmv, hpos, hor] at h
    exact Except.noConfusion h
  | some o =>
  cases mv with
  | false =>
    have hu := update_moveFalse s m p o hmv hpos hor
    rw [hu] at h
    simp only [Except.ok.injEq, Prod.mk.injEq] at h
    exact Or.inl ⟨p, o, rfl, rfl, rfl, h.1.symm, h.2.symm⟩
  | true =>
    cases hprev : s.previous_received_pose with
    | some q =>
      cases hc : are_close (convRecv s p o) q (1 / 10) (radians 35) with
      | false =>
        have hu : update s m = .ok ({ s with
            relative_pose_init := none
            previous_received_pose := some (convRecv s p o) }, []) :=
          update_jump s m p o q hmv hpos hor hprev hc
        rw [hu] at h
        simp only [Except.ok.injEq, Prod.mk.injEq] at h
        exact Or.inr (Or.inl ⟨p, o, q, rfl, rfl, rfl, rfl, hc,
          h.1.symm, h.2.symm⟩)
      | true =>
        have hu : update s m = acceptPose s m (convRecv s p o) :=
          update_accept_of_close s m p o q hmv hpos hor hprev hc
        rw [hu] at h
        cases hrel : s.relative_pose_init with
        | none =>
          rw [acceptPose_of_none s m (convRecv s p o) hrel] at h
          simp only [Except.ok.injEq, Prod.mk.injEq] at h
          refine Or.inr (Or.inr (Or.inl ⟨p, o, rfl, rfl, rfl, rfl,
            h.1.symm, ?_⟩))
          rw [← h.1, ← h.2]
        | some rel =>
          cases habs : s.absolute_pose_init with
          | none =>
            rw [acceptPose_of_some_none s m (convRecv s p o) rel hrel habs] at h
            exact Except.noConfusion h
          | some a4 =>
            rw [acceptPose_of_some s m (convRecv s p o) rel a4 hrel habs] at h
            simp only [Except.ok.injEq, Prod.mk.injEq] at h
            refine Or.inr (Or.inr (Or.inr ⟨p, o, rel, a4, rfl, rfl, rfl,
              rfl, rfl, ?_, ?_⟩))
            · rw [← hrel, ← habs]
              exact h.1.symm
            · rw [← h.1, ← h.2]
    | none =>
      have hu : update s m = acceptPose s m (convRecv s p o) :=
        update_accept_of_none s m p o hmv hpos hor hprev
      rw [hu] at h
      cases hrel : s.relative_pose_init with
      | none =>
        rw [acceptPose_of_none s m (convRecv s p o) hrel] at h
        simp only [Except.ok.injEq, Prod.mk.injEq] at h
        refine Or.inr (Or.inr (Or.inl ⟨p, o, rfl, rfl, rfl, rfl,
          h.1.symm, ?_⟩))
        rw [← h.1, ← h.2]
      | some rel =>
        cases habs : s.absolute_pose_init with
        | none =>
          rw [acceptPose_of_some_none s m (convRecv s p o) rel hrel habs] at h
          exact Except.noConfusion h
        | some a4 =>
          rw [acceptPose_of_some s m (convRecv s p o) rel a4 hrel habs] at h
          simp only [Except.ok.injEq, Prod.mk.injEq] at h
          refine Or.inr (Or.inr (Or.inr ⟨p, o, rel, a4, rfl, rfl, rfl,
            rfl, rfl, ?_, ?_⟩))
          · rw [← hrel, ← habs]
            exact h.1.symm
          · rw [← h.1, ← h.2]

/-- Helper: the concrete jump rejection used by several counterexamples:
from `sJump` (previous received pose at the origin), the far sample `msgFar`
is rejected. -/
theorem sJump_msgFar_update :
    update sJump msgFar = .ok ({ sJump with
        relative_pose_init := none
        previous_received_pose := some (convertReceived
          sJump.natural_phone_pose ![(1:ℚ), 0, 0] ![1, 0, 0, 0]) }, []) := by
  have hfar : are_close (convertReceived sJump.natural_phone_pose
      ![(1:ℚ), 0, 0] ![1, 0, 0, 0]) (compose ![0, 0, 0] 1)
      (1/10) (radians 35) = false := by
    show are_close (convertReceived (compose ![0, 0, 0] 1)
      ![(1:ℚ), 0, 0] ![1, 0, 0, 0]) (compose ![0, 0, 0] 1)
      (1/10) (radians 35) = false
    rw [conv_msgFar]
    exact are_close_far
  exact update_jump sJump msgFar ⟨1, 0, 0⟩ ⟨1, 0, 0, 0⟩
    (compose ![0, 0, 0] 1) rfl rfl rfl rfl hfar

/-- C7 counterexample: a detected pose jump clears only
`relative_pose_init`; `absolute_pose_init` keeps its old value (`some 1`
here), contradicting the claim that a jump sets both reference fields to
`None`. -/
theorem c7_counterexample :
    update sJump msgFar = .ok ({ sJump with
        relative_pose_init := none
        previous_received_pose := some (convertReceived
          sJump.natural_phone_pose ![(1:ℚ), 0, 0] ![1, 0, 0, 0]) }, []) ∧
    ({ sJump with
        relative_pose_init := none
        previous_received_pose := some (convertReceived
          sJump.natural_phone_pose ![(1:ℚ), 0, 0] ![1, 0, 0, 0]) } :
      TeleopState).absolute_pose_init = some 1 :=
  ⟨sJump_msgFar_update, rfl⟩

/-- C7 (amended): a `move=false` sample clears both reference fields while a
jump reset clears only `relative_pose_init` (keeping the stale
`absolute_pose_init`, which is overwritten at the next re-initialization);
neither touches `current_output_pose`, and in every successful call that
leaves `relative_pose_init` cleared the output pose is unchanged. -/
theorem c7_reference_clearing :
    (∀ s m p o, m.move = some false → m.position = some p →
      m.orientation = some o →
      update s m = .ok ({ s with
        relative_pose_init := none
        absolute_pose_init := none }, [(s.pose, m)])) ∧
    (∀ s m p o q, m.move = some true → m.position = some p →
      m.orientation = some o → s.previous_received_pose = some q →
      are_close (convRecv s p o) q (1 / 10) (radians 35) = false →
      update s m = .ok ({ s with
        relative_pose_init := none
        previous_received_pose := some (convRecv s p o) }, [])) ∧
    (∀ s m s' ns, update s m = .ok (s', ns) →
      s'.relative_pose_init = none → s'.pose = s.pose) := by
  refine ⟨fun s m p o hm hp ho => update_moveFalse s m p o hm hp ho,
    fun s m p o q hm hp ho hprev hc =>
      update_jump s m p o q hm hp ho hprev hc, ?_⟩
  intro s m s' ns h hnone
  rcases update_ok_cases s m s' ns h with hcase | hcase | hcase | hcase
  · obtain ⟨p, o, _, _, _, hs', _⟩ := hcase
    subst hs'
    rfl
  · obtain ⟨p, o, q, _, _, _, _, _, hs', _⟩ := hcase
    subst hs'
    rfl
  · obtain ⟨p, o, _, _, _, _, hs', _⟩ := hcase
    subst hs'
    exact absurd hnone (by simp)
  · obtain ⟨p, o, rel, a4, _, _, _, hrel, _, hs', _⟩ := hcase
    subst hs'
    exact absurd hnone (by simp [hrel])

theorem c7_reference_clearing_witness :
    update sJump msgRelease = .ok ({ sJump with
      relative_pose_init := none
      absolute_pose_init := none },
      [(sJump.pose, msgRelease)]) :=
  c7_reference_clearing.1 sJump msgRelease ⟨0, 0, 0⟩ ⟨1, 0, 0, 0⟩ rfl rfl rfl

/-- Tracker state reached from the fresh reference tracker by the samples
`[msgMove 0, msgMove 0]`: mid-gesture with `previous_received_pose` at the
converted origin pose. -/
def sC8b : TeleopState :=
  { relative_pose_init := some (compose ![0, 0, 0] 1)
    absolute_pose_init := some 1
    previous_received_pose := some (compose ![0, 0, 0] 1)
    pose := 1
    natural_phone_pose := compose ![0, 0, 0] 1 }

/-- Tracker state after a further `move=false` sample: the references are
cleared but `previous_received_pose` is NOT. -/
def sC8c : TeleopState :=
  { relative_pose_init := none
    absolute_pose_init := none
    previous_received_pose := some (compose ![0, 0, 0] 1)
    pose := 1
    natural_phone_pose := compose ![0, 0, 0] 1 }

theorem c8_step2 : update sC1a (msgMove 0) =
    .ok (sC8b, [((1 : M4), msgMove 0)]) := by
  have h : update sC1a (msgMove 0) =
      acceptPose sC1a (msgMove 0)
        (convertReceived (compose ![0, 0, 0] 1) ![(0:ℚ), 0, 0] ![1, 0, 0, 0]) :=
    update_accept_of_none sC1a (msgMove 0) ⟨0, 0, 0⟩ ⟨1, 0, 0, 0⟩ rfl rfl rfl rfl
  rw [h, conv_msgMove 0,
    acceptPose_of_some sC1a (msgMove 0) (compose ![0, 0, 0] 1)
      (compose ![0, 0, 0] 1) 1 rfl rfl,
    accept_pose_self 1 (compose ![(0:ℚ), 0, 0] 1) bottomRow_one det3_rot_c0]
  rfl

theorem c8_step3 : update sC8b msgRelease =
    .ok (sC8c, [((1 : M4), msgRelease)]) :=
  update_moveFalse sC8b msgRelease ⟨0, 0, 0⟩ ⟨1, 0, 0, 0⟩ rfl rfl rfl

/-- C8 counterexample: after a gesture `[msgMove 0, msgMove 0]` followed by
a `move=false` release, the tracker reaches `sC8c`, whose
`last_accepted_input_pose` is NOT cleared (it still holds the old converted
pose); the very first `move=true` sample of the next gesture is then
jump-checked against that stale pose and rejected (no notification, no pose
update), contradicting the claim. -/
theorem c8_counterexample :
    runUpdates s0 [msgMove 0, msgMove 0, msgRelease] =
      .ok (sC8c, [((1 : M4), msgMove 0), ((1 : M4), msgMove 0),
        ((1 : M4), msgRelease)]) ∧
    sC8c.previous_received_pose = some (compose ![0, 0, 0] 1) ∧
    update sC8c msgFar = .ok ({ sC8c with
      previous_received_pose := some (convertReceived
        sC8c.natural_phone_pose ![(1:ℚ), 0, 0] ![1, 0, 0, 0]) }, []) := by
  refine ⟨?_, rfl, ?_⟩
  · simp only [runUpdates, c1_step1, c8_step2, c8_step3, List.cons_append,
      List.nil_append]
  · have hfar : are_close (convertReceived sC8c.natural_phone_pose
        ![(1:ℚ), 0, 0] ![1, 0, 0, 0]) (compose ![0, 0, 0] 1)
        (1/10) (radians 35) = false := by
      show are_close (convertReceived (compose ![0, 0, 0] 1)
        ![(1:ℚ), 0, 0] ![1, 0, 0, 0]) (compose ![0, 0, 0] 1)
        (1/10) (radians 35) = false
      rw [conv_msgFar]
      exact are_close_far
    exact update_jump sC8c msgFar ⟨1, 0, 0⟩ ⟨1, 0, 0, 0⟩
      (compose ![0, 0, 0] 1) rfl rfl rfl rfl hfar

/-- C8 (amended): tracking resets do not clear `last_accepted_input_pose`:
a `move=false` sample leaves it untouched, and a jump reset overwrites it
with the rejected sample's converted pose.  It is cleared exactly when a
`move=true` sample is accepted with no relative reference (gesture
initialization).  Consequently the first `move=true` sample after a pause is
jump-checked against the stale stored pose and can itself be rejected. -/
theorem c8_previous_pose_behavior :
    (∀ s m s' ns p o, m.move = some false → m.position = some p →
      m.orientation = some o → update s m = .ok (s', ns) →
      s'.previous_received_pose = s.previous_received_pose) ∧
    (∀ s m s' ns p o q, m.move = some true → m.position = some p →
      m.orientation = some o → s.previous_received_pose = some q →
      are_close (convRecv s p o) q (1 / 10) (radians 35) = false →
      update s m = .ok (s', ns) →
      s'.previous_received_pose = some (convRecv s p o)) ∧
    (∀ s m s' ns, m.move = some true → s.relative_pose_init = none →
      update s m = .ok (s', ns) → ns ≠ [] →
      s'.previous_received_pose = none) := by
  refine ⟨?_, ?_, ?_⟩
  · intro s m s' ns p o hm hp ho h
    rw [update_moveFalse s m p o hm hp ho] at h
    simp only [Except.ok.injEq, Prod.mk.injEq] at h
    rw [← h.1]
  · intro s m s' ns p o q hm hp ho hprev hc h
    have hu : update s m = .ok ({ s with
        relative_pose_init := none
        previous_received_pose := some (convRecv s p o) }, []) :=
      update_jump s m p o q hm hp ho hprev hc
    rw [hu] at h
    simp only [Except.ok.injEq, Prod.mk.injEq] at h
    rw [← h.1]
  · intro s m s' ns hm hrel h hne
    rcases update_ok_cases s m s' ns h with hcase | hcase | hcase | hcase
    · obtain ⟨p, o, hm2, _, _, _, _⟩ := hcase
      rw [hm] at hm2
      exact absurd hm2 (by simp)
    · obtain ⟨p, o, q, _, _, _, _, _, _, hns⟩ := hcase
      exact absurd hns hne
    · obtain ⟨p, o, _, _, _, _, hs', _⟩ := hcase
      subst hs'
      rfl
    · obtain ⟨p, o, rel, a4, _, _, _, hrel2, _, _, _⟩ := hcase
      rw [hrel] at hrel2
      exact absurd hrel2 (by simp)

theorem c8_previous_pose_behavior_witness :
    ({ sJump with relative_pose_init := none, absolute_pose_init := none } :
      TeleopState).previous_received_pose = sJump.previous_received_pose :=
  c8_previous_pose_behavior.1 sJump msgRelease _ _ ⟨0, 0, 0⟩ ⟨1, 0, 0, 0⟩
    rfl rfl rfl (update_moveFalse sJump msgRelease ⟨0, 0, 0⟩ ⟨1, 0, 0, 0⟩
      rfl rfl rfl)

/-- A `move=true` sample carrying the all-zero (non-normalizable)
quaternion. -/
def msgZeroQuat : Msg := mkMsg true 0 0 0 0 0 0 0

theorem conv_zeroq :
    convertReceived (compose ![0, 0, 0] 1) ![(0:ℚ), 0, 0] ![0, 0, 0, 0] =
      compose ![0, 0, 0] 1 := by
  rw [convert_of_quat2mat_one _ _ quat2mat_zeroq, mulVecTF]
  have h : (![-(0:ℚ), -0, 0] : V3) = ![0, 0, 0] := by
    funext i
    fin_cases i <;> norm_num
  rw [h]

/-- Helper: the all-zero-quaternion sample is processed exactly like an
identity-orientation sample — `quat2mat` silently maps it to the identity
rotation and the tracker initializes a gesture and notifies. -/
theorem c9_zeroq_step :
    update s0 msgZeroQuat = .ok (sC1a, [((1 : M4), msgZeroQuat)]) := by
  have h : update s0 msgZeroQuat =
      acceptPose s0 msgZeroQuat
        (convertReceived (compose ![0, 0, 0] 1) ![(0:ℚ), 0, 0] ![0, 0, 0, 0]) :=
    update_accept_of_none s0 msgZeroQuat ⟨0, 0, 0⟩ ⟨0, 0, 0, 0⟩ rfl rfl rfl rfl
  rw [h, conv_zeroq,
    acceptPose_of_none s0 msgZeroQuat (compose ![0, 0, 0] 1) rfl,
    accept_pose_self _ _ (show bottomRow s0.pose from bottomRow_one)
      det3_rot_c0]
  rfl

/-- C9 counterexample: a sample with the non-normalizable all-zero
quaternion is NOT rejected: the tracker updates its state (the relative
reference is installed, so the state differs from the fresh one) and
notifies a subscriber, contradicting the claim that malformed samples leave
the state untouched and produce no notification. -/
theorem c9_counterexample :
    update s0 msgZeroQuat = .ok (sC1a, [((1 : M4), msgZeroQuat)]) ∧
    sC1a.relative_pose_init ≠ none ∧ sC1a ≠ s0 := by
  refine ⟨c9_zeroq_step, ?_, ?_⟩
  · intro h
    exact Option.noConfusion h
  · intro h
    exact Option.noConfusion (congrArg TeleopState.relative_pose_init h)

/-- C9 (amended): `Teleop.__update` performs no malformed-sample handling of
its own.  A missing `move`, `position` or `orientation` field raises a
`KeyError` out of the update (before any state mutation and before any
notification) rather than producing a typed rejection; a NaN component is a
floating-point notion outside this exact-arithmetic model; and an all-zero
quaternion is not rejected at all: `transforms3d.quat2mat` maps it to the
identity rotation and the sample is processed normally, updating the state
and notifying subscribers. -/
theorem c9_malformed_handling :
    (∀ s m, m.move = none → update s m = .error (.keyError "move")) ∧
    (∀ s m b, m.move = some b → m.position = none →
      update s m = .error (.keyError "position")) ∧
    (∀ s m b p, m.move = some b → m.position = some p →
      m.orientation = none → update s m = .error (.keyError "orientation")) ∧
    quat2mat ![0, 0, 0, 0] = 1 ∧
    update s0 msgZeroQuat = .ok (sC1a, [((1 : M4), msgZeroQuat)]) := by
  refine ⟨?_, ?_, ?_, quat2mat_zeroq, c9_zeroq_step⟩
  · intro s m hm
    unfold update
    rw [hm]
  · intro s m b hm hp
    unfold update
    rw [hm, hp]
  · intro s m b p hm hp ho
    unfold update
    rw [hm, hp, ho]

/-- A message with every field missing. -/
def msgEmpty : Msg := { move := none, position := none, orientation := none }

theorem c9_malformed_handling_witness :
    update s0 msgEmpty = .error (.keyError "move") :=
  c9_malformed_handling.1 s0 msgEmpty rfl

/-- The rigidity invariant carried by the tracker: the output pose is a
rigid homogeneous transform, and whenever a gesture is in progress the
relative reference factors as (orthonormal) x (natural-pose rotation) and
the absolute reference is itself a rigid pose. -/
def StateInv (s : TeleopState) : Prop :=
  validPose s.pose ∧
  ∀ rel, s.relative_pose_init = some rel →
    (∃ O, orthDet1 O ∧ rot rel = O * rot s.natural_phone_pose) ∧
    ∃ a4, s.absolute_pose_init = some a4 ∧ validPose a4

theorem relOrient_orthDet1 (natR O1 O2 : M3) (hdet : det3 natR ≠ 0)
    (h1 : orthDet1 O1) (h2 : orthDet1 O2) :
    orthDet1 ((O1 * natR) * inv3 (O2 * natR)) := by
  rw [inv3_mul_rev O2 natR (det3_ne_zero_of_orth _ h2) hdet]
  have hassoc : O1 * natR * (inv3 natR * inv3 O2) =
      O1 * (natR * inv3 natR) * inv3 O2 := by
    simp only [mul_assoc]
  rw [hassoc, mul_inv3 natR hdet, mul_one]
  exact orthDet1_mul _ _ h1 (orthDet1_inv3 _ h2)

/-- C10: starting from the identity initial pose, every tracker state is
rigidity-invariant, and every `process` call preserves the invariant and
publishes only rigid homogeneous poses (bottom row `[0,0,0,1]`, orthonormal
rotation block of determinant `+1`), provided the configured natural pose is
homogeneous with an invertible rotation and the samples carry nonzero
quaternions. -/
theorem c10_rigid_invariant :
    (∀ t r, StateInv (initState t r)) ∧
    (∀ s m s' ns, StateInv s → bottomRow s.natural_phone_pose →
      det3 (rot s.natural_phone_pose) ≠ 0 →
      (∀ o, m.orientation = some o →
        ¬(o.w = 0 ∧ o.x = 0 ∧ o.y = 0 ∧ o.z = 0)) →
      update s m = .ok (s', ns) →
      StateInv s' ∧ ∀ pm ∈ ns, validPose pm.1) := by
  constructor
  · intro t r
    refine ⟨⟨bottomRow_one, ?_⟩, ?_⟩
    · show orthDet1 (rot (1 : M4))
      rw [rot_one4]
      exact orthDet1_one
    · intro rel hrel
      exact absurd hrel (by simp [initState])
  · intro s m s' ns hinv hnatB hnatD _ h
    rcases update_ok_cases s m s' ns h with hcase | hcase | hcase | hcase
    · obtain ⟨p, o, _, _, _, hs', hns⟩ := hcase
      subst hs'
      subst hns
      refine ⟨⟨hinv.1, ?_⟩, ?_⟩
      · intro rel hrel
        exact absurd hrel (by simp)
      · intro pm hpm
        rcases List.mem_singleton.mp hpm with rfl
        exact hinv.1
    · obtain ⟨p, o, q, _, _, _, _, _, hs', hns⟩ := hcase
      subst hs'
      subst hns
      refine ⟨⟨hinv.1, ?_⟩, ?_⟩
      · intro rel hrel
        exact absurd hrel (by simp)
      · intro pm hpm
        exact absurd hpm (List.not_mem_nil pm)
    · obtain ⟨p, o, _, _, ho, hrel, hs', hns⟩ := hcase
      have hd : det3 (rot (convRecv s p o)) ≠ 0 :=
        det3_rot_convertReceived_ne _ _ _ hnatB hnatD
      have hvp : validPose (compose
          (transl s.pose + (transl (convRecv s p o) - transl (convRecv s p o)))
          (rot (convRecv s p o) * inv3 (rot (convRecv s p o)) * rot s.pose)) := by
        refine ⟨bottomRow_compose _ _, ?_⟩
        rw [rot_compose, mul_inv3 _ hd, one_mul]
        exact hinv.1.2
      subst hs'
      subst hns
      refine ⟨⟨hvp, ?_⟩, ?_⟩
      · intro rel hrel2
        simp only [Option.some.injEq] at hrel2
        subst hrel2
        refine ⟨⟨rot TF_RUB2FLU * quat2mat ![o.w, o.x, o.y, o.z] *
          inv3 (rot TF_RUB2FLU), orthDet1_convFactor _, ?_⟩,
          ⟨s.pose, rfl, hinv.1⟩⟩
        exact rot_convertReceived _ _ _ hnatB
      · intro pm hpm
        rcases List.mem_singleton.mp hpm with rfl
        exact hvp
    · obtain ⟨p, o, rel, a4, _, _, ho, hrel, habs, hs', hns⟩ := hcase
      obtain ⟨⟨O2, hO2, hrelrot⟩, a4x, habs2, hva4⟩ := hinv.2 rel hrel
      rw [habs] at habs2
      injection habs2 with he
      subst he
      have hconvrot : rot (convRecv s p o) =
          (rot TF_RUB2FLU * quat2mat ![o.w, o.x, o.y, o.z] *
            inv3 (rot TF_RUB2FLU)) * rot s.natural_phone_pose :=
        rot_convertReceived _ _ _ hnatB
      have horient : orthDet1 (rot (convRecv s p o) * inv3 (rot rel)) := by
        rw [hconvrot, hrelrot]
        exact relOrient_orthDet1 _ _ _ hnatD (orthDet1_convFactor _) hO2
      have hvp : validPose (compose
          (transl a4 + (transl (convRecv s p o) - transl rel))
          (rot (convRecv s p o) * inv3 (rot rel) * rot a4)) := by
        refine ⟨bottomRow_compose _ _, ?_⟩
        rw [rot_compose]
        exact orthDet1_mul _ _ horient hva4.2
      subst hs'
      subst hns
      refine ⟨⟨hvp, ?_⟩, ?_⟩
      · intro rel2 hrel2
        simp only [hrel, Option.some.injEq] at hrel2
        subst hrel2
        exact ⟨⟨O2, hO2, hrelrot⟩, ⟨a4, habs, hva4⟩⟩
      · intro pm hpm
        rcases List.mem_singleton.mp hpm with rfl
        exact hvp

theorem c10_rigid_invariant_witness :
    StateInv sC1a ∧ ∀ pm ∈ [((1 : M4), msgMove 0)], validPose pm.1 := by
  refine (c10_rigid_invariant.2 s0 (msgMove 0) sC1a [((1 : M4), msgMove 0)]
    ?_ (bottomRow_compose _ _) ?_ ?_ c1_step1)
  · exact ⟨⟨bottomRow_one, by rw [show rot s0.pose = rot (1:M4) from rfl, rot_one4]; exact orthDet1_one⟩,
      fun rel hrel => absurd hrel (by simp [s0, initState])⟩
  · show det3 (rot (compose ![(0:ℚ), 0, 0] 1)) ≠ 0
    rw [rot_compose, det3_one]
    norm_num
  · intro o ho
    have : o = ⟨1, 0, 0, 0⟩ := by
      simpa [msgMove, mkMsg] using ho.symm
    subst this
    norm_num
